import Mathlib

/-!
Verification development for the `rust-core` crate of the tradingbot
repository (files `src/data.rs`, `src/glicko.rs`, `src/backtest.rs`,
`src/lib.rs`).  The Rust code is shallowly embedded: `f64` values become
real numbers (`ℝ`), `i64` timestamps become `ℤ`, `usize` becomes `ℕ`,
`Vec` becomes `List`, `HashMap` becomes either an association list (when
the code iterates over it) or a function into `Option` (when it is only
read/written pointwise), and `Result<T>` becomes `Except String T`.
`f64::INFINITY` (used only for the profit factor) is modelled as
`⊤ : EReal`.  The unbounded `while` loop searching the bracket's lower
end in `find_new_volatility` is modelled by a least-`k` search
(`Nat.find`); when no such `k` exists the Rust loop would not terminate,
and the model returns the junk value `0`.  Likewise the `while` loop of
`run_windowed_backtest` does not terminate when the step size is zero and
the time range is non-empty; the model returns `none` for exactly that
case and `some` of the loop's result otherwise.
-/

open scoped Classical

noncomputable section

/-! ## Constants (`glicko.rs` lines 5-11, `backtest.rs`) -/

/-- System constant `TAU` of `glicko.rs`. -/
def TAU : ℝ := 0.5

/-- Convergence tolerance `EPSILON` of `glicko.rs`. -/
def EPSILON : ℝ := 0.000001

/-- Scale factor between the public rating scale and the Glicko-2 scale. -/
def GLICKO2_SCALE : ℝ := 173.7178

/-- Default rating of a fresh player. -/
def DEFAULT_RATING : ℝ := 1500.0

/-- Default rating deviation of a fresh player. -/
def DEFAULT_RD : ℝ := 350.0

/-- Default volatility of a fresh player. -/
def DEFAULT_VOLATILITY : ℝ := 0.06

/-! ## `data.rs` -/

/-- Confidence labels of `data.rs`. -/
inductive ScoreConfidence where
  | High : ScoreConfidence
  | Low : ScoreConfidence
  | Neutral : ScoreConfidence
deriving DecidableEq

/-- Output record of `HybridScore::calculate` (`data.rs` lines 3-10). -/
structure HybridScore where
  price_up : Bool
  price_unchanged : Bool
  taker_buy_dominant : Bool
  score : ℝ
  confidence : ScoreConfidence

/-- `HybridScore::calculate` (`data.rs` lines 19-60): continuous scaling of
the relative price change into `[0,1]`, with a draw band of `0.1%`, and a
confidence class read off the distance of the score from `0.5`. -/
def HybridScore.calculate (open_ close taker_buy_volume taker_sell_volume : ℝ) :
    HybridScore :=
  let price_change := (close - open_) / open_
  let score := if |price_change| < 0.001 then 0.5
    else min (max (0.5 + price_change * 50.0) 0.0) 1.0
  let price_up := decide (close > open_)
  let price_unchanged := decide (|close - open_| < 0.001)
  let taker_buy_dominant := decide (taker_buy_volume > taker_sell_volume)
  let confidence := if |score - 0.5| < 0.1 then ScoreConfidence.Neutral
    else if |score - 0.5| < 0.25 then ScoreConfidence.Low
    else ScoreConfidence.High
  ⟨price_up, price_unchanged, taker_buy_dominant, score, confidence⟩

/-- Output record of `MovingStats::calculate` (`data.rs` lines 63-68). -/
structure MovingStats where
  mean : ℝ
  std_dev : ℝ
  z_score : ℝ

/-- `MovingStats::calculate` (`data.rs` lines 70-101): mean, population
standard deviation and z-score of `current_value` against `values`. -/
def MovingStats.calculate (values : List ℝ) (current_value : ℝ) : MovingStats :=
  if values.isEmpty then ⟨current_value, 0, 0⟩
  else
    let mean := values.sum / (values.length : ℝ)
    let variance := (values.map (fun x => (x - mean) ^ 2)).sum / (values.length : ℝ)
    let std_dev := Real.sqrt variance
    let z_score := if std_dev > 0 then (current_value - mean) / std_dev else 0
    ⟨mean, std_dev, z_score⟩

/-! ## Records of `lib.rs` -/

/-- `KlineData` (`lib.rs` lines 8-22).  The Rust field `open` is a Lean
keyword and is embedded as `open_`. -/
structure KlineData where
  symbol : String
  open_time : ℤ
  close_time : ℤ
  open_ : ℝ
  high : ℝ
  low : ℝ
  close : ℝ
  volume : ℝ
  quote_asset_volume : ℝ
  number_of_trades : ℕ
  taker_buy_base_asset_volume : ℝ
  taker_buy_quote_asset_volume : ℝ

/-- `GlickoRating` (`lib.rs` lines 24-32). -/
structure GlickoRating where
  symbol : String
  timestamp : ℤ
  rating : ℝ
  rating_deviation : ℝ
  volatility : ℝ
  performance_score : ℝ

/-- `BacktestConfig` (`lib.rs` lines 34-45). -/
structure BacktestConfig where
  base_asset : String
  quote_asset : String
  z_score_threshold : ℝ
  moving_averages : ℕ
  profit_percent : ℝ
  stop_loss_percent : ℝ
  start_time : ℤ
  end_time : ℤ
  window_size : Option ℕ

/-- `BacktestOrder` (`lib.rs` lines 62-72). -/
structure BacktestOrder where
  symbol : String
  side : String
  quantity : ℝ
  price : ℝ
  timestamp : ℤ
  reason : String
  profit_loss : Option ℝ
  profit_loss_percent : Option ℝ

/-- `BacktestResult` (`lib.rs` lines 47-60); `profit_factor` is `EReal`
because the Rust field can carry `f64::INFINITY`. -/
structure BacktestResult where
  total_return : ℝ
  annualized_return : ℝ
  sharpe_ratio : ℝ
  sortino_ratio : ℝ
  alpha : ℝ
  max_drawdown : ℝ
  win_ratio : ℝ
  total_trades : ℕ
  profit_factor : EReal
  avg_trade_duration : ℝ
  orders : List BacktestOrder

/-! ## `glicko.rs` -/

/-- `GlickoPlayer` (`glicko.rs` lines 13-19). -/
structure GlickoPlayer where
  symbol : String
  rating : ℝ
  rating_deviation : ℝ
  volatility : ℝ

/-- `GlickoPlayer::new` (`glicko.rs` lines 22-29). -/
def GlickoPlayer.new (symbol : String) : GlickoPlayer :=
  ⟨symbol, DEFAULT_RATING, DEFAULT_RD, DEFAULT_VOLATILITY⟩

/-- `GlickoPlayer::to_glicko2_scale` (`glicko.rs` lines 31-35). -/
def GlickoPlayer.to_glicko2_scale (p : GlickoPlayer) : ℝ × ℝ :=
  ((p.rating - 1500.0) / GLICKO2_SCALE, p.rating_deviation / GLICKO2_SCALE)

/-- `GlickoPlayer::from_glicko2_scale` (`glicko.rs` lines 37-41). -/
def GlickoPlayer.from_glicko2_scale (mu phi sigma : ℝ) : ℝ × ℝ × ℝ :=
  (GLICKO2_SCALE * mu + 1500.0, GLICKO2_SCALE * phi, sigma)

/-- `e_function` (`glicko.rs` lines 45-47). -/
def e_function (mu mu_j g_phi_j : ℝ) : ℝ :=
  1.0 / (1.0 + Real.exp (-g_phi_j * (mu - mu_j)))

/-- `g_function` (`glicko.rs` lines 50-52). -/
def g_function (phi : ℝ) : ℝ :=
  1.0 / Real.sqrt (1.0 + 3.0 * phi ^ 2 / Real.pi ^ 2)

/-- `f_function` (`glicko.rs` lines 55-60). -/
def f_function (x delta_squared phi_squared v a tau_squared : ℝ) : ℝ :=
  Real.exp x * (delta_squared - phi_squared - v - Real.exp x) /
      (2.0 * (phi_squared + v + Real.exp x) ^ 2) -
    (x - a) / tau_squared

/-- One iteration of the Illinois loop of `find_new_volatility`
(`glicko.rs` lines 90-107).  The state is `(big_a, big_b, f_a, f_b)`;
`Sum.inr` is the early return taken when `|f_c| < EPSILON`. -/
def illinoisStep (delta_squared phi_squared v a tau_squared : ℝ)
    (st : ℝ × ℝ × ℝ × ℝ) : (ℝ × ℝ × ℝ × ℝ) ⊕ ℝ :=
  let big_a := st.1
  let big_b := st.2.1
  let f_a := st.2.2.1
  let f_b := st.2.2.2
  let big_c := big_a + (big_a - big_b) * f_a / (f_b - f_a)
  let f_c := f_function big_c delta_squared phi_squared v a tau_squared
  if |f_c| < EPSILON then Sum.inr (Real.exp (big_c / 2.0))
  else if f_c * f_b < 0 then Sum.inl (big_b, big_c, f_b, f_c)
  else Sum.inl (big_a, big_c, f_a / 2.0, f_c)

/-- The Illinois loop of `find_new_volatility`, run for at most `n`
iterations: either the state after `n` full iterations (`Sum.inl`) or the
early-return value (`Sum.inr`). -/
def illinoisGo (delta_squared phi_squared v a tau_squared : ℝ) :
    ℕ → ℝ × ℝ × ℝ × ℝ → (ℝ × ℝ × ℝ × ℝ) ⊕ ℝ
  | 0, st => Sum.inl st
  | n + 1, st =>
    match illinoisStep delta_squared phi_squared v a tau_squared st with
    | Sum.inl st2 => illinoisGo delta_squared phi_squared v a tau_squared n st2
    | Sum.inr r => Sum.inr r

/-- What `find_new_volatility` returns from the loop's outcome: the early
return itself, or `exp(big_a / 2)` after the 50-iteration budget
(`glicko.rs` line 109). -/
def volatilityOfOutcome : (ℝ × ℝ × ℝ × ℝ) ⊕ ℝ → ℝ
  | Sum.inl st => Real.exp (st.1 / 2.0)
  | Sum.inr r => r

/-- The `k` found by the `while` loop of `glicko.rs` lines 79-83: the least
`k ≥ 1` with `¬ f(a - k·TAU) < 0` (the loop steps `k` while `f` is
negative).  When no such `k` exists the Rust loop does not terminate; the
model returns the junk value `0` (no claim touches that case). -/
def bracketK (delta_squared phi_squared v a tau_squared : ℝ) : ℕ :=
  if h : ∃ k : ℕ,
      ¬ f_function (a - ((k : ℝ) + 1) * TAU) delta_squared phi_squared v a
          tau_squared < 0
  then Nat.find h + 1 else 0

/-- The initial upper bracket bound `big_b` of `find_new_volatility`
(`glicko.rs` lines 76-84). -/
def initialBigB (sigma delta phi v : ℝ) : ℝ :=
  let a := Real.log (sigma ^ 2)
  if delta ^ 2 > phi ^ 2 + v then Real.log (delta ^ 2 - phi ^ 2 - v)
  else a - (bracketK (delta ^ 2) (phi ^ 2) v a (TAU ^ 2) : ℝ) * TAU

/-- The initial Illinois state of `find_new_volatility` (`glicko.rs`
lines 74-87): `(big_a, big_b, f(big_a), f(big_b))` with `big_a = a`. -/
def illinoisInit (sigma delta phi v : ℝ) : ℝ × ℝ × ℝ × ℝ :=
  let a := Real.log (sigma ^ 2)
  let big_b := initialBigB sigma delta phi v
  (a, big_b, f_function a (delta ^ 2) (phi ^ 2) v a (TAU ^ 2),
    f_function big_b (delta ^ 2) (phi ^ 2) v a (TAU ^ 2))

/-- `find_new_volatility` (`glicko.rs` lines 63-110). -/
def find_new_volatility (sigma delta phi v : ℝ) : ℝ :=
  volatilityOfOutcome
    (illinoisGo (delta ^ 2) (phi ^ 2) v (Real.log (sigma ^ 2)) (TAU ^ 2) 50
      (illinoisInit sigma delta phi v))

/-- `update_rating` (`glicko.rs` lines 112-157). -/
def update_rating (player : GlickoPlayer) (opponent_rating opponent_rd score : ℝ) :
    GlickoPlayer :=
  let mp := player.to_glicko2_scale
  let mu := mp.1
  let phi := mp.2
  let op := (GlickoPlayer.mk "opponent" opponent_rating opponent_rd 0.06).to_glicko2_scale
  let mu_j := op.1
  let phi_j := op.2
  let g_phi_j := g_function phi_j
  let e_mu_mu_j := e_function mu mu_j g_phi_j
  let v := 1.0 / (g_phi_j ^ 2 * e_mu_mu_j * (1.0 - e_mu_mu_j))
  let delta := v * g_phi_j * (score - e_mu_mu_j)
  let new_volatility := find_new_volatility player.volatility delta phi v
  let phi_star := Real.sqrt (phi ^ 2 + new_volatility ^ 2)
  let new_phi := 1.0 / Real.sqrt (1.0 / phi_star ^ 2 + 1.0 / v)
  let new_mu := mu + new_phi ^ 2 * g_phi_j * (score - e_mu_mu_j)
  let back := GlickoPlayer.from_glicko2_scale new_mu new_phi new_volatility
  ⟨player.symbol, back.1, back.2.1, back.2.2⟩

/-- Benchmark opponent rating of `calculate_ratings` (`glicko.rs` line 167). -/
def benchmark_rating : ℝ := 1500.0

/-- Benchmark opponent rating deviation of `calculate_ratings`
(`glicko.rs` line 168). -/
def benchmark_rd : ℝ := 50.0

/-- `calculate_ratings` (`glicko.rs` lines 159-210).  The `HashMap` of
players is embedded as a function `String → Option GlickoPlayer` (it is
only read and written pointwise); `sort_by_key` is the stable
`List.mergeSort` on open times. -/
def calculate_ratings (klines : List KlineData) : Except String (List GlickoRating) :=
  let sorted := klines.mergeSort (fun k1 k2 => decide (k1.open_time ≤ k2.open_time))
  let final := sorted.foldl
    (fun (acc : (String → Option GlickoPlayer) × List GlickoRating) kline =>
      let players := acc.1
      let player := (players kline.symbol).getD (GlickoPlayer.new kline.symbol)
      let taker_sell_volume := kline.volume - kline.taker_buy_base_asset_volume
      let hybrid_score := HybridScore.calculate kline.open_ kline.close
        kline.taker_buy_base_asset_volume taker_sell_volume
      let updated_player := update_rating player benchmark_rating benchmark_rd
        hybrid_score.score
      let rating_record : GlickoRating := ⟨kline.symbol, kline.open_time,
        updated_player.rating, updated_player.rating_deviation,
        updated_player.volatility, hybrid_score.score⟩
      (fun s => if s = kline.symbol then some updated_player else players s,
        acc.2 ++ [rating_record]))
    (fun _ => none, [])
  Except.ok final.2

/-! ## `backtest.rs` -/

/-- `Position` (`backtest.rs` lines 15-25). -/
structure Position where
  symbol : String
  quantity : ℝ
  entry_price : ℝ
  entry_time : ℤ
  stop_loss_price : ℝ
  take_profit_price : ℝ

/-- `Portfolio` (`backtest.rs` lines 27-33); the `HashMap` of positions is
an association list because the simulation iterates over it. -/
structure Portfolio where
  cash : ℝ
  positions : List (String × Position)
  equity_curve : List (ℤ × ℝ)
  orders : List BacktestOrder

/-- `Portfolio::new` (`backtest.rs` lines 36-43). -/
def Portfolio.new (initial_cash : ℝ) : Portfolio :=
  ⟨initial_cash, [], [(0, initial_cash)], []⟩

/-- `HashMap::get` over the association list of positions. -/
def lookupPosition (positions : List (String × Position)) (symbol : String) :
    Option Position :=
  (positions.find? (fun sp => sp.1 == symbol)).map (fun sp => sp.2)

/-- `HashMap::remove` over the association list of positions. -/
def removePosition (positions : List (String × Position)) (symbol : String) :
    List (String × Position) :=
  positions.filter (fun sp => !(sp.1 == symbol))

/-- `Portfolio::get_portfolio_value` (`backtest.rs` lines 45-55). -/
def Portfolio.get_portfolio_value (p : Portfolio)
    (current_prices : String → Option ℝ) : ℝ :=
  p.cash + (p.positions.map (fun sp =>
    match current_prices sp.1 with
    | some price => sp.2.quantity * price
    | none => 0)).sum

/-- `Portfolio::open_position` (`backtest.rs` lines 73-121). -/
def Portfolio.open_position (p : Portfolio) (symbol : String) (price : ℝ)
    (timestamp : ℤ) (config : BacktestConfig) (allocation_percent : ℝ) :
    Portfolio × Option BacktestOrder :=
  if (lookupPosition p.positions symbol).isSome then (p, none)
  else
    let position_value := p.cash * allocation_percent
    let quantity := position_value / price
    if quantity * price > p.cash then (p, none)
    else
      let take_profit_price := price * (1.0 + config.profit_percent / 100.0)
      let stop_loss_price := price * (1.0 - config.stop_loss_percent / 100.0)
      let position : Position :=
        ⟨symbol, quantity, price, timestamp, stop_loss_price, take_profit_price⟩
      let order : BacktestOrder :=
        ⟨symbol, "BUY", quantity, price, timestamp, "ENTRY", none, none⟩
      (⟨p.cash - quantity * price, (symbol, position) :: p.positions,
        p.equity_curve, p.orders ++ [order]⟩, some order)

/-- `Portfolio::close_position` (`backtest.rs` lines 123-153). -/
def Portfolio.close_position (p : Portfolio) (symbol : String) (price : ℝ)
    (timestamp : ℤ) (reason : String) : Portfolio × Option BacktestOrder :=
  match lookupPosition p.positions symbol with
  | none => (p, none)
  | some position =>
    let proceeds := position.quantity * price
    let profit_loss := proceeds - position.quantity * position.entry_price
    let profit_loss_percent :=
      (price - position.entry_price) / position.entry_price * 100.0
    let order : BacktestOrder := ⟨symbol, "SELL", position.quantity, price,
      timestamp, reason, some profit_loss, some profit_loss_percent⟩
    (⟨p.cash + proceeds, removePosition p.positions symbol, p.equity_curve,
      p.orders ++ [order]⟩, some order)

/-- `Portfolio::update_equity_curve` (`backtest.rs` lines 155-158). -/
def Portfolio.update_equity_curve (p : Portfolio) (timestamp : ℤ)
    (current_prices : String → Option ℝ) : Portfolio :=
  ⟨p.cash, p.positions,
    p.equity_curve ++ [(timestamp, p.get_portfolio_value current_prices)],
    p.orders⟩

/-- The per-symbol rating history of `calculate_z_score_signals`
(`backtest.rs` lines 187-201): the symbol's `(timestamp, rating)` pairs in
input order (`HashMap` grouping keeps per-key encounter order), then the
stable sort by timestamp. -/
def symbolHistory (ratings : List GlickoRating) (symbol : String) : List (ℤ × ℝ) :=
  ((ratings.filter (fun r => r.symbol == symbol)).map
    (fun r => (r.timestamp, r.rating))).mergeSort (fun x y => decide (x.1 ≤ y.1))

/-- The inner loop of `calculate_z_score_signals` (`backtest.rs` lines
204-229) on one symbol's sorted history: one `(timestamp, z_score, signal)`
per index from `moving_averages_period` up. -/
def signalsForSymbol (rating_history : List (ℤ × ℝ))
    (moving_averages_period : ℕ) (threshold : ℝ) : List (ℤ × ℝ × String) :=
  ((List.range rating_history.length).drop moving_averages_period).map
    (fun window_end =>
      let current := rating_history.getD window_end (0, 0)
      let window_ratings :=
        ((rating_history.drop (window_end - moving_averages_period)).take
          moving_averages_period).map (fun x => x.2)
      let stats := MovingStats.calculate window_ratings current.2
      let signal := if stats.z_score > threshold then "BUY"
        else if stats.z_score < -threshold then "SELL"
        else "HOLD"
      (current.1, stats.z_score, signal))

/-- Milliseconds per year as used by `calculate_performance_metrics`
(`backtest.rs` line 251). -/
def ms_per_year : ℝ := 365.25 * 24.0 * 60.0 * 60.0 * 1000.0

/-- Daily risk-free rate (`backtest.rs` line 279). -/
def risk_free_rate : ℝ := 0.02 / 365.25

/-- Per-step simple returns of the equity curve (`backtest.rs` lines
259-270). -/
def equityReturns (equity_curve : List (ℤ × ℝ)) : List ℝ :=
  (equity_curve.zip equity_curve.tail).map (fun w =>
    if w.1.2 > 0 then (w.2.2 - w.1.2) / w.1.2 else 0)

/-- `mean_return` (`backtest.rs` line 272). -/
def meanReturn (equity_curve : List (ℤ × ℝ)) : ℝ :=
  (equityReturns equity_curve).sum / ((equityReturns equity_curve).length : ℝ)

/-- `variance` of the returns (`backtest.rs` lines 273-275). -/
def returnVariance (equity_curve : List (ℤ × ℝ)) : ℝ :=
  ((equityReturns equity_curve).map
    (fun r => (r - meanReturn equity_curve) ^ 2)).sum /
    ((equityReturns equity_curve).length : ℝ)

/-- `volatility` (`backtest.rs` line 276). -/
def volatilityOfCurve (equity_curve : List (ℤ × ℝ)) : ℝ :=
  Real.sqrt (returnVariance equity_curve)

/-- `downside_variance` (`backtest.rs` lines 287-298). -/
def downsideVariance (equity_curve : List (ℤ × ℝ)) : ℝ :=
  let negative_returns := (equityReturns equity_curve).filter
    (fun r => decide (r < meanReturn equity_curve))
  if negative_returns.isEmpty then 0
  else (negative_returns.map (fun r => (r - meanReturn equity_curve) ^ 2)).sum /
    (negative_returns.length : ℝ)

/-- `downside_deviation` (`backtest.rs` line 300). -/
def downsideDeviation (equity_curve : List (ℤ × ℝ)) : ℝ :=
  Real.sqrt (downsideVariance equity_curve)

/-- The running-peak drawdown fold (`backtest.rs` lines 307-319). -/
def maxDrawdownOfCurve (initial_value : ℝ) (equity_curve : List (ℤ × ℝ)) : ℝ :=
  (equity_curve.foldl (fun pm tv =>
    let peak := if tv.2 > pm.1 then tv.2 else pm.1
    let drawdown := (peak - tv.2) / peak
    (peak, if drawdown > pm.2 then drawdown else pm.2)) (initial_value, 0)).2

/-- The SELL orders of the ledger (`backtest.rs` lines 322-331). -/
def sellOrders (orders : List BacktestOrder) : List BacktestOrder :=
  orders.filter (fun o => o.side == "SELL")

/-- `gross_profit` (`backtest.rs` lines 340-345). -/
def grossProfit (orders : List BacktestOrder) : ℝ :=
  (((sellOrders orders).filterMap (fun o => o.profit_loss)).filter
    (fun pl => decide (pl > 0))).sum

/-- `gross_loss` (`backtest.rs` lines 347-353). -/
def grossLoss (orders : List BacktestOrder) : ℝ :=
  ((((sellOrders orders).filterMap (fun o => o.profit_loss)).filter
    (fun pl => decide (pl < 0))).map (fun pl => |pl|)).sum

/-- `profit_factor` (`backtest.rs` lines 355-361); `f64::INFINITY` is
`⊤ : EReal`. -/
def profitFactor (orders : List BacktestOrder) : EReal :=
  if grossLoss orders > 0 then ((grossProfit orders / grossLoss orders : ℝ) : EReal)
  else if grossProfit orders > 0 then (⊤ : EReal)
  else 0

/-- The matched BUY/SELL holding times in hours (`backtest.rs` lines
363-376); the `HashMap` of open entry times is a function map. -/
def tradeDurations (orders : List BacktestOrder) : List ℝ :=
  (orders.foldl
    (fun (acc : (String → Option ℤ) × List ℝ) o =>
      if o.side == "BUY" then
        (fun s => if s = o.symbol then some o.timestamp else acc.1 s, acc.2)
      else if o.side == "SELL" then
        match acc.1 o.symbol with
        | some entry_time =>
          (fun s => if s = o.symbol then none else acc.1 s,
            acc.2 ++ [((o.timestamp - entry_time : ℤ) : ℝ) / (1000.0 * 60.0 * 60.0)])
        | none => acc
      else acc)
    (fun _ => none, [])).2

/-- The metrics record built by `calculate_performance_metrics`
(`backtest.rs` lines 398-410). -/
structure PerformanceMetrics where
  total_return : ℝ
  annualized_return : ℝ
  sharpe_ratio : ℝ
  sortino_ratio : ℝ
  alpha : ℝ
  max_drawdown : ℝ
  win_ratio : ℝ
  total_trades : ℕ
  profit_factor : EReal
  avg_trade_duration : ℝ

/-- The all-zero default record (`#[derive(Default)]`). -/
def PerformanceMetrics.zero : PerformanceMetrics := ⟨0, 0, 0, 0, 0, 0, 0, 0, 0, 0⟩

/-- `calculate_performance_metrics` (`backtest.rs` lines 237-396). -/
def calculate_performance_metrics (portfolio : Portfolio) (initial_value : ℝ)
    (start_time end_time : ℤ) : PerformanceMetrics :=
  if portfolio.equity_curve.isEmpty then PerformanceMetrics.zero
  else
    let final_value := (portfolio.equity_curve.getLastD (0, 0)).2
    let total_return := (final_value - initial_value) / initial_value
    let years := ((end_time - start_time : ℤ) : ℝ) / ms_per_year
    let annualized_return :=
      if years > 0 then (final_value / initial_value) ^ (1.0 / years) - 1.0 else 0
    let mean_return := meanReturn portfolio.equity_curve
    let volatility := volatilityOfCurve portfolio.equity_curve
    let sharpe_ratio := if volatility > 0 then
      (mean_return - risk_free_rate) / volatility * Real.sqrt 365.25 else 0
    let dd := downsideDeviation portfolio.equity_curve
    let sortino_ratio := if dd > 0 then
      (mean_return - risk_free_rate) / dd * Real.sqrt 365.25 else 0
    let max_drawdown := maxDrawdownOfCurve initial_value portfolio.equity_curve
    let profitable_trades := ((sellOrders portfolio.orders).filter
      (fun o => decide (o.profit_loss.getD 0 > 0))).length
    let total_trades := (sellOrders portfolio.orders).length
    let win_ratio := if total_trades > 0 then
      (profitable_trades : ℝ) / (total_trades : ℝ) else 0
    let durations := tradeDurations portfolio.orders
    let avg_trade_duration := if !durations.isEmpty then
      durations.sum / (durations.length : ℝ) else 0
    ⟨total_return, annualized_return, sharpe_ratio, sortino_ratio, 0,
      max_drawdown, win_ratio, total_trades, profitFactor portfolio.orders,
      avg_trade_duration⟩

/-- The simulated price series of `run_backtest` (`backtest.rs` lines
457-476): `100 * rating / 1500` per matching rating, sorted by timestamp. -/
def simulatedPrices (ratings : List GlickoRating) (symbol : String) :
    List (ℤ × ℝ) :=
  ((ratings.filter (fun r => r.symbol == symbol)).map
    (fun r => (r.timestamp, 100.0 * (r.rating / 1500.0)))).mergeSort
    (fun x y => decide (x.1 ≤ y.1))

/-- The OCO exit check of one tick (`backtest.rs` lines 521-549): collect
the symbols whose stop-loss or take-profit level is hit, then close each,
stop-loss first. -/
def Portfolio.check_oco (p : Portfolio) (price : ℝ) (timestamp : ℤ) : Portfolio :=
  let positions_to_close := (p.positions.filter (fun sp =>
    decide (price ≤ sp.2.stop_loss_price) ||
      decide (price ≥ sp.2.take_profit_price))).map (fun sp => sp.1)
  positions_to_close.foldl (fun port pos_symbol =>
    match lookupPosition port.positions pos_symbol with
    | some pos =>
      if price ≤ pos.stop_loss_price then
        (port.close_position pos_symbol price timestamp "EXIT_STOP").1
      else (port.close_position pos_symbol price timestamp "EXIT_PROFIT").1
    | none => port) p

/-- One aligned tick of the simulation loop (`backtest.rs` lines 498-552):
signal execution, then the OCO check, then the equity-curve update with the
tick's price map. -/
def processTick (config : BacktestConfig) (symbol : String) (p : Portfolio)
    (signal_time : ℤ) (price : ℝ) (signal : String) : Portfolio :=
  let p1 := if signal == "BUY" then
      (p.open_position symbol price signal_time config 0.95).1
    else if signal == "SELL" then
      (p.close_position symbol price signal_time "EXIT_ZSCORE").1
    else p
  let p2 := p1.check_oco price signal_time
  p2.update_equity_curve signal_time (fun s => if s == symbol then some price else none)

/-- The two-pointer merge walk of `run_backtest` (`backtest.rs` lines
482-556): advance whichever side has the earlier timestamp, process a tick
only on an exact match. -/
def simLoop (config : BacktestConfig) (symbol : String) :
    List (ℤ × ℝ × String) → List (ℤ × ℝ) → Portfolio → Portfolio
  | [], _, p => p
  | _ :: _, [], p => p
  | (st, z, sig) :: ss, (pt, pr) :: ps, p =>
    if st < pt then simLoop config symbol ss ((pt, pr) :: ps) p
    else if pt < st then simLoop config symbol ((st, z, sig) :: ss) ps p
    else simLoop config symbol ss ps (processTick config symbol p st pr sig)
termination_by ss ps _ => ss.length + ps.length

/-- `run_backtest` (`backtest.rs` lines 445-580).  The signal map is
consulted only at the one traded symbol, so the per-symbol signal list is
computed directly; an absent key is the empty list, on which the loop is a
no-op, as in the source. -/
def run_backtest (config : BacktestConfig) (ratings : List GlickoRating) :
    Except String BacktestResult :=
  let initial_cash : ℝ := 10000.0
  let symbol := config.base_asset ++ "USDT"
  let signals := signalsForSymbol (symbolHistory ratings symbol)
    config.moving_averages config.z_score_threshold
  let prices := simulatedPrices ratings symbol
  let final_portfolio := simLoop config symbol signals prices
    (Portfolio.new initial_cash)
  let metrics := calculate_performance_metrics final_portfolio initial_cash
    config.start_time config.end_time
  Except.ok ⟨metrics.total_return, metrics.annualized_return,
    metrics.sharpe_ratio, metrics.sortino_ratio, metrics.alpha,
    metrics.max_drawdown, metrics.win_ratio, metrics.total_trades,
    metrics.profit_factor, metrics.avg_trade_duration, final_portfolio.orders⟩

/-- The `while` loop of `run_windowed_backtest` (`backtest.rs` lines
590-614).  The guard adds `0 < step_size_ms ∧ 0 < window_size_ms` so the
recursion is well founded; at every call site these hold whenever the Rust
loop terminates, and the diverging case is cut off in
`run_windowed_backtest` itself before this loop is entered. -/
def windowLoop (config : BacktestConfig) (ratings : List GlickoRating)
    (window_size_ms step_size_ms : ℤ) (current_start : ℤ) :
    Except String (List BacktestResult) :=
  if h : current_start + window_size_ms ≤ config.end_time ∧
      0 < step_size_ms ∧ 0 < window_size_ms then
    let current_end := current_start + window_size_ms
    let window_ratings := ratings.filter (fun r =>
      decide (r.timestamp ≥ current_start) && decide (r.timestamp ≤ current_end))
    if window_ratings.isEmpty then
      windowLoop config ratings window_size_ms step_size_ms
        (current_start + step_size_ms)
    else do
      let result ← run_backtest
        { config with start_time := current_start, end_time := current_end }
        window_ratings
      let rest ← windowLoop config ratings window_size_ms step_size_ms
        (current_start + step_size_ms)
      pure (result :: rest)
  else Except.ok []
termination_by (config.end_time + window_size_ms - current_start).toNat
decreasing_by
  all_goals
    refine (Int.toNat_lt_toNat ?_).mpr (by omega)
    omega

/-- `run_windowed_backtest` (`backtest.rs` lines 582-617).  `none` stands
for the one diverging case of the Rust `while` loop: a zero step size
(zero window months) with a non-exhausted time range. -/
def run_windowed_backtest (config : BacktestConfig)
    (ratings : List GlickoRating) : Option (Except String (List BacktestResult)) :=
  let window_size_ms : ℤ := (config.window_size.getD 12 : ℤ) * 30 * 24 * 60 * 60 * 1000
  let step_size_ms : ℤ := window_size_ms / 2
  if step_size_ms ≤ 0 ∧ config.start_time + window_size_ms ≤ config.end_time then
    none
  else
    some (windowLoop config ratings window_size_ms step_size_ms config.start_time)

/-! ## Statements of the checked spec sentences that need their own shape -/

/-- The claim that the value returned after the 50-iteration budget is
`exp(x/2)` for `x` the last-computed iterate (the final `big_b`): stated
for one call of `find_new_volatility`. -/
def illinoisFallbackClaim (sigma delta phi v : ℝ) : Prop :=
  ∀ big_a big_b f_a f_b,
    illinoisGo (delta ^ 2) (phi ^ 2) v (Real.log (sigma ^ 2)) (TAU ^ 2) 50
        (illinoisInit sigma delta phi v) = Sum.inl (big_a, big_b, f_a, f_b) →
      find_new_volatility sigma delta phi v = Real.exp (big_b / 2.0)

/-- The spec's description of the bracket search, for one call: when
`delta² - phi² - v` is not positive, the upper bound is `a - k·TAU` for the
smallest positive integer `k` at which `f` is negative. -/
def bracketSpecClaim (sigma delta phi v : ℝ) : Prop :=
  ¬ delta ^ 2 > phi ^ 2 + v →
    ∃ k : ℕ, 1 ≤ k ∧
      f_function (Real.log (sigma ^ 2) - (k : ℝ) * TAU) (delta ^ 2) (phi ^ 2) v
          (Real.log (sigma ^ 2)) (TAU ^ 2) < 0 ∧
      (∀ j : ℕ, 1 ≤ j → j < k →
        ¬ f_function (Real.log (sigma ^ 2) - (j : ℝ) * TAU) (delta ^ 2) (phi ^ 2)
            v (Real.log (sigma ^ 2)) (TAU ^ 2) < 0) ∧
      initialBigB sigma delta phi v = Real.log (sigma ^ 2) - (k : ℝ) * TAU

/-- The z-score exactly as the spec words it: the rolling sample is the
`N` ratings immediately preceding index `i` of the history (excluding the
current one), `mean` and the population standard deviation (divide by `N`)
are computed over that sample, `z = (current - mean)/std_dev`, and `z = 0`
when the deviation is zero or the sample is empty.  Written from the
spec's words, to be compared with `MovingStats.calculate` as used by
`signalsForSymbol`. -/
def zScoreSpec (h : List (ℤ × ℝ)) (N : ℕ) (i : ℕ) : ℝ :=
  let sample := ((h.drop (i - N)).take N).map (fun x => x.2)
  let mean := sample.sum / (N : ℝ)
  let sd := Real.sqrt ((sample.map (fun x => (x - mean) ^ 2)).sum / (N : ℝ))
  if sample = [] ∨ sd = 0 then 0 else ((h.getD i (0, 0)).2 - mean) / sd

/-- The portfolio states reachable in a run of the simulation loop: the
fresh portfolio, closed under processing ticks. -/
inductive ReachablePortfolio (config : BacktestConfig) (symbol : String) :
    Portfolio → Prop
  | init (initial_cash : ℝ) :
      ReachablePortfolio config symbol (Portfolio.new initial_cash)
  | tick (p : Portfolio) (signal_time : ℤ) (price : ℝ) (signal : String) :
      ReachablePortfolio config symbol p →
      ReachablePortfolio config symbol
        (processTick config symbol p signal_time price signal)

end

/-! ## Theorems -/

/-- Unfolding of the absolute relative price change for positive open. -/
theorem abs_price_change_eq (open_ close : ℝ) (hopen : 0 < open_) :
    |(close - open_) / open_| = |close - open_| / open_ := by
  rw [abs_div, abs_of_pos hopen]

/-- C9: for every input with `open > 0`, the score of
`HybridScore::calculate` lies in `[0, 1]`; it is `0.5` when
`|close - open|/open < 0.001` and otherwise equals
`0.5 + 50*(close - open)/open` clamped to `[0, 1]`. -/
theorem hybrid_score_bounded (open_ close taker_buy_volume taker_sell_volume : ℝ)
    (hopen : 0 < open_) :
    0 ≤ (HybridScore.calculate open_ close taker_buy_volume taker_sell_volume).score ∧
    (HybridScore.calculate open_ close taker_buy_volume taker_sell_volume).score ≤ 1 ∧
    (|close - open_| / open_ < 0.001 →
      (HybridScore.calculate open_ close taker_buy_volume taker_sell_volume).score
        = 0.5) ∧
    (¬ |close - open_| / open_ < 0.001 →
      (HybridScore.calculate open_ close taker_buy_volume taker_sell_volume).score
        = min (max (0.5 + 50 * ((close - open_) / open_)) 0) 1) := by
  simp only [HybridScore.calculate]
  rw [abs_price_change_eq open_ close hopen]
  refine ⟨?_, ?_, ?_, ?_⟩
  · split
    · norm_num
    · exact le_min (by norm_num [le_max_iff]) (by norm_num)
  · split
    · norm_num
    · exact le_trans (min_le_right _ _) (by norm_num)
  · intro h
    rw [if_pos h]
  · intro h
    rw [if_neg h]
    norm_num [mul_comm]

/-- Witness for C9 at the concrete candle `(100, 105, 500, 1000)`. -/
theorem hybrid_score_bounded_witness :
    0 < (100 : ℝ) ∧
    (0 ≤ (HybridScore.calculate 100 105 500 1000).score ∧
      (HybridScore.calculate 100 105 500 1000).score ≤ 1 ∧
      (|(105 : ℝ) - 100| / 100 < 0.001 →
        (HybridScore.calculate 100 105 500 1000).score = 0.5) ∧
      (¬ |(105 : ℝ) - 100| / 100 < 0.001 →
        (HybridScore.calculate 100 105 500 1000).score =
          min (max (0.5 + 50 * (((105 : ℝ) - 100) / 100)) 0) 1)) :=
  ⟨by norm_num, hybrid_score_bounded 100 105 500 1000 (by norm_num)⟩

/-- C3 (the code as written): on the price-up, sell-dominant candle
`(open, close, buy, sell) = (100, 105, 500, 1000)` the code returns score
`1` with `High` confidence, although its own unit test
(`test_hybrid_score_low_confidence_win`) and the spec's contract demand a
low-confidence outcome (score `0.75`) for that input. -/
theorem hybrid_score_confidence_ignores_dominance :
    (HybridScore.calculate 100 105 500 1000).score = 1 ∧
    (HybridScore.calculate 100 105 500 1000).confidence = ScoreConfidence.High ∧
    (HybridScore.calculate 100 105 500 1000).price_up = true ∧
    (HybridScore.calculate 100 105 500 1000).taker_buy_dominant = false ∧
    ¬ ((HybridScore.calculate 100 105 500 1000).score = 0.75 ∧
      (HybridScore.calculate 100 105 500 1000).confidence = ScoreConfidence.Low) := by
  have hs : (HybridScore.calculate 100 105 500 1000).score = 1 := by
    norm_num [HybridScore.calculate, min_def, max_def, abs_of_nonneg]
  have hc : (HybridScore.calculate 100 105 500 1000).confidence
      = ScoreConfidence.High := by
    norm_num [HybridScore.calculate, min_def, max_def, abs_of_nonneg]
  refine ⟨hs, hc, ?_, ?_, ?_⟩
  · norm_num [HybridScore.calculate]
  · norm_num [HybridScore.calculate]
  · rintro ⟨h1, -⟩
    rw [hs] at h1
    norm_num at h1

/-- Looking up the only position of a one-position book finds it. -/
theorem lookupPosition_singleton (s : String) (pos : Position) :
    lookupPosition [(s, pos)] s = some pos := by
  simp [lookupPosition]

/-- C5: on a tick against a book holding one open position, the OCO check
tests the stop-loss level first: `price ≤ stop_loss` closes with
`EXIT_STOP` (no assumption on the take-profit level, so also when
`price ≥ take_profit` holds at the same time); `EXIT_PROFIT` is recorded
exactly when `price ≥ take_profit` and `price > stop_loss`, and any
`EXIT_PROFIT` order the tick appends indeed has both. -/
theorem oco_stop_loss_checked_first (p : Portfolio) (s : String) (pos : Position)
    (price : ℝ) (ts : ℤ) (hpos : p.positions = [(s, pos)]) :
    (price ≤ pos.stop_loss_price →
      (p.check_oco price ts).orders = p.orders ++
        [⟨s, "SELL", pos.quantity, price, ts, "EXIT_STOP",
          some (pos.quantity * price - pos.quantity * pos.entry_price),
          some ((price - pos.entry_price) / pos.entry_price * 100.0)⟩]) ∧
    (¬ price ≤ pos.stop_loss_price → price ≥ pos.take_profit_price →
      (p.check_oco price ts).orders = p.orders ++
        [⟨s, "SELL", pos.quantity, price, ts, "EXIT_PROFIT",
          some (pos.quantity * price - pos.quantity * pos.entry_price),
          some ((price - pos.entry_price) / pos.entry_price * 100.0)⟩]) ∧
    (¬ price ≤ pos.stop_loss_price → ¬ price ≥ pos.take_profit_price →
      (p.check_oco price ts).orders = p.orders) ∧
    (∀ o, o ∈ (p.check_oco price ts).orders → o.reason = "EXIT_PROFIT" →
      o ∈ p.orders ∨ (price ≥ pos.take_profit_price ∧ pos.stop_loss_price < price)) := by
  have hstop : price ≤ pos.stop_loss_price →
      (p.check_oco price ts).orders = p.orders ++
        [⟨s, "SELL", pos.quantity, price, ts, "EXIT_STOP",
          some (pos.quantity * price - pos.quantity * pos.entry_price),
          some ((price - pos.entry_price) / pos.entry_price * 100.0)⟩] := by
    intro hsl
    simp [Portfolio.check_oco, hpos, hsl, Portfolio.close_position, lookupPosition]
  have hprofit : ¬ price ≤ pos.stop_loss_price → price ≥ pos.take_profit_price →
      (p.check_oco price ts).orders = p.orders ++
        [⟨s, "SELL", pos.quantity, price, ts, "EXIT_PROFIT",
          some (pos.quantity * price - pos.quantity * pos.entry_price),
          some ((price - pos.entry_price) / pos.entry_price * 100.0)⟩] := by
    intro hsl htp
    simp [Portfolio.check_oco, hpos, hsl, htp, Portfolio.close_position,
      lookupPosition]
  have hnone : ¬ price ≤ pos.stop_loss_price → ¬ price ≥ pos.take_profit_price →
      (p.check_oco price ts).orders = p.orders := by
    intro hsl htp
    simp [Portfolio.check_oco, hpos, hsl, htp]
  refine ⟨hstop, hprofit, hnone, ?_⟩
  intro o ho hreason
  by_cases hsl : price ≤ pos.stop_loss_price
  · rw [hstop hsl] at ho
    rcases List.mem_append.mp ho with h | h
    · exact Or.inl h
    · simp at h
      rw [h] at hreason
      simp at hreason
  · by_cases htp : price ≥ pos.take_profit_price
    · rw [hprofit hsl htp] at ho
      rcases List.mem_append.mp ho with h | h
      · exact Or.inl h
      · exact Or.inr ⟨htp, lt_of_not_le hsl⟩
    · rw [hnone hsl htp] at ho
      exact Or.inl ho

/-- Witness for C5 at a tick where both exit levels are hit at once
(`stop_loss = 120 ≥ take_profit = 110`, price `115`): the stop-loss exit
is chosen. -/
theorem oco_stop_loss_checked_first_witness :
    (115 : ℝ) ≤ 120 ∧ (115 : ℝ) ≥ 110 ∧
    ((Portfolio.mk 1000 [("BTCUSDT", Position.mk "BTCUSDT" 2 100 0 120 110)]
        [(0, 10000)] []).check_oco 115 5).orders =
      [] ++ [BacktestOrder.mk "BTCUSDT" "SELL" 2 115 5 "EXIT_STOP"
        (some (2 * 115 - 2 * 100)) (some ((115 - 100) / 100 * 100.0))] :=
  ⟨by norm_num, by norm_num,
    (oco_stop_loss_checked_first
      (Portfolio.mk 1000 [("BTCUSDT", Position.mk "BTCUSDT" 2 100 0 120 110)]
        [(0, 10000)] [])
      "BTCUSDT" (Position.mk "BTCUSDT" 2 100 0 120 110) 115 5 rfl).1
      (by norm_num)⟩

/-- An empty lookup means the symbol is not among the position keys. -/
theorem lookupPosition_eq_none_iff (ps : List (String × Position)) (s : String) :
    lookupPosition ps s = none ↔ s ∉ ps.map Prod.fst := by
  simp only [lookupPosition, Option.map_eq_none', List.find?_eq_none,
    List.mem_map, beq_iff_eq]
  aesop

/-- `open_position` keeps the position keys duplicate-free. -/
theorem open_position_nodup (p : Portfolio) (symbol : String) (price : ℝ)
    (ts : ℤ) (config : BacktestConfig) (alloc : ℝ)
    (h : (p.positions.map Prod.fst).Nodup) :
    (((p.open_position symbol price ts config alloc).1).positions.map
      Prod.fst).Nodup := by
  simp only [Portfolio.open_position]
  split
  · exact h
  · split
    · exact h
    · refine List.nodup_cons.mpr ⟨?_, h⟩
      rename_i hnone _
      exact (lookupPosition_eq_none_iff p.positions symbol).mp
        (Option.not_isSome_iff_eq_none.mp hnone)

/-- `close_position` keeps the position keys duplicate-free. -/
theorem close_position_nodup (p : Portfolio) (symbol : String) (price : ℝ)
    (ts : ℤ) (reason : String) (h : (p.positions.map Prod.fst).Nodup) :
    (((p.close_position symbol price ts reason).1).positions.map
      Prod.fst).Nodup := by
  simp only [Portfolio.close_position]
  split
  · exact h
  · exact h.sublist (List.Sublist.map Prod.fst (List.filter_sublist _))

/-- The OCO check keeps the position keys duplicate-free. -/
theorem check_oco_nodup (p : Portfolio) (price : ℝ) (ts : ℤ)
    (h : (p.positions.map Prod.fst).Nodup) :
    ((p.check_oco price ts).positions.map Prod.fst).Nodup := by
  rw [Portfolio.check_oco]
  generalize ((p.positions.filter _).map _) = l
  induction l generalizing p with
  | nil => exact h
  | cons s l ih =>
    rw [List.foldl_cons]
    apply ih
    rcases hl : lookupPosition p.positions s with - | pos
    · simpa [hl] using h
    · simp only [hl]
      split
      · exact close_position_nodup p s price ts "EXIT_STOP" h
      · exact close_position_nodup p s price ts "EXIT_PROFIT" h

/-- One simulation tick keeps the position keys duplicate-free. -/
theorem processTick_nodup (config : BacktestConfig) (symbol : String)
    (p : Portfolio) (st : ℤ) (price : ℝ) (sig : String)
    (h : (p.positions.map Prod.fst).Nodup) :
    ((processTick config symbol p st price sig).positions.map Prod.fst).Nodup := by
  rw [processTick]
  apply check_oco_nodup
  split
  · exact open_position_nodup p symbol price st config 0.95 h
  · split
    · exact close_position_nodup p symbol price st "EXIT_ZSCORE" h
    · exact h

/-- C6: every portfolio state reachable in the simulation has at most one
open position per symbol (duplicate-free keys), and `open_position` is a
no-op returning `none` when the symbol already has a position or when the
computed cost exceeds the cash, and otherwise debits exactly
`quantity * price = 0.95 * cash`, records the new position and exactly one
BUY order with reason `ENTRY`, and leaves the equity curve alone. -/
theorem portfolio_open_position_contract :
    (∀ (config : BacktestConfig) (symbol : String) (q : Portfolio),
      ReachablePortfolio config symbol q → (q.positions.map Prod.fst).Nodup) ∧
    (∀ (p : Portfolio) (symbol : String) (price : ℝ) (ts : ℤ)
        (config : BacktestConfig),
      ((lookupPosition p.positions symbol).isSome →
        p.open_position symbol price ts config 0.95 = (p, none)) ∧
      (p.cash * 0.95 / price * price > p.cash →
        p.open_position symbol price ts config 0.95 = (p, none)) ∧
      ((lookupPosition p.positions symbol).isSome = false →
        ¬ p.cash * 0.95 / price * price > p.cash → price ≠ 0 →
        p.open_position symbol price ts config 0.95 =
          (⟨p.cash - 0.95 * p.cash,
            (symbol, ⟨symbol, p.cash * 0.95 / price, price, ts,
              price * (1.0 - config.stop_loss_percent / 100.0),
              price * (1.0 + config.profit_percent / 100.0)⟩) :: p.positions,
            p.equity_curve,
            p.orders ++ [⟨symbol, "BUY", p.cash * 0.95 / price, price, ts,
              "ENTRY", none, none⟩]⟩,
            some ⟨symbol, "BUY", p.cash * 0.95 / price, price, ts,
              "ENTRY", none, none⟩) ∧
        p.cash * 0.95 / price * price = 0.95 * p.cash)) := by
  constructor
  · intro config symbol q hq
    induction hq with
    | init c => simp [Portfolio.new]
    | tick p st price sig _ ih => exact processTick_nodup config symbol p st price sig ih
  · intro p symbol price ts config
    refine ⟨?_, ?_, ?_⟩
    · intro h
      rw [Portfolio.open_position, if_pos h]
    · intro h
      rw [Portfolio.open_position]
      split
      · rfl
      · rw [if_pos h]
    · intro h1 h2 h3
      have hquant : p.cash * 0.95 / price * price = 0.95 * p.cash := by
        rw [div_mul_cancel₀ _ h3]
        ring
      refine ⟨?_, hquant⟩
      rw [Portfolio.open_position, if_neg (by simp [h1]), if_neg h2, hquant]

/-- Witness for C6: a fresh portfolio opens one position debiting
`0.95 * cash` exactly; a book already holding the symbol is a no-op; an
over-cost entry (negative cash) is a no-op; the fresh portfolio is a
reachable state with duplicate-free keys. -/
theorem portfolio_open_position_contract_witness :
    ((Portfolio.new 10000).positions.map Prod.fst).Nodup ∧
    (Portfolio.open_position
      ⟨100, [("BTCUSDT", ⟨"BTCUSDT", 1, 50, 0, 45, 55⟩)], [(0, 100)], []⟩
      "BTCUSDT" 50 7
      ⟨"BTC", "USDT", 2, 200, 5, 2.5, 0, 1000, some 12⟩ 0.95 =
      (⟨100, [("BTCUSDT", ⟨"BTCUSDT", 1, 50, 0, 45, 55⟩)], [(0, 100)], []⟩,
        none)) ∧
    (Portfolio.open_position ⟨-10, [], [(0, -10)], []⟩ "BTCUSDT" 1 0
      ⟨"BTC", "USDT", 2, 200, 5, 2.5, 0, 1000, some 12⟩ 0.95 =
      (⟨-10, [], [(0, -10)], []⟩, none)) ∧
    (Portfolio.open_position (Portfolio.new 10000) "BTCUSDT" 50 7
      ⟨"BTC", "USDT", 2, 200, 5, 2.5, 0, 1000, some 12⟩ 0.95 =
      (⟨(10000 : ℝ) - 0.95 * 10000,
        [("BTCUSDT", ⟨"BTCUSDT", (10000 : ℝ) * 0.95 / 50, 50, 7,
          50 * (1.0 - (2.5 : ℝ) / 100.0), 50 * (1.0 + (5 : ℝ) / 100.0)⟩)],
        [(0, 10000)],
        [⟨"BTCUSDT", "BUY", (10000 : ℝ) * 0.95 / 50, 50, 7, "ENTRY",
          none, none⟩]⟩,
        some ⟨"BTCUSDT", "BUY", (10000 : ℝ) * 0.95 / 50, 50, 7, "ENTRY",
          none, none⟩)) := by
  refine ⟨portfolio_open_position_contract.1
      ⟨"BTC", "USDT", 2, 200, 5, 2.5, 0, 1000, some 12⟩ "BTCUSDT"
      (Portfolio.new 10000) (ReachablePortfolio.init 10000),
    (portfolio_open_position_contract.2 _ "BTCUSDT" 50 7 _).1 (by
      simp [lookupPosition]),
    (portfolio_open_position_contract.2 _ "BTCUSDT" 1 0 _).2.1 (by norm_num),
    ?_⟩
  have h := ((portfolio_open_position_contract.2 (Portfolio.new 10000)
    "BTCUSDT" 50 7 ⟨"BTC", "USDT", 2, 200, 5, 2.5, 0, 1000, some 12⟩).2.2
    (by simp [lookupPosition, Portfolio.new]) (by norm_num [Portfolio.new])
    (by norm_num))
  rw [h.1]
  rfl

/-- C7: all ratio statistics of the performance analyzer default to `0` on
degenerate denominators: annualized return for an empty time span, Sharpe
for non-positive volatility, Sortino for a non-positive downside
deviation, win ratio without SELL orders, average duration without matched
BUY/SELL pairs; and the profit factor is `gross_profit / gross_loss` when
`gross_loss > 0`, infinite (`⊤`) when `gross_loss = 0 < gross_profit`, and
`0` when both are `0`. -/
theorem performance_metrics_defaults (p : Portfolio) (initial : ℝ)
    (start endT : ℤ) (hne : p.equity_curve.isEmpty = false) :
    (((endT - start : ℤ) : ℝ) / ms_per_year ≤ 0 →
      (calculate_performance_metrics p initial start endT).annualized_return = 0) ∧
    (volatilityOfCurve p.equity_curve ≤ 0 →
      (calculate_performance_metrics p initial start endT).sharpe_ratio = 0) ∧
    (downsideDeviation p.equity_curve ≤ 0 →
      (calculate_performance_metrics p initial start endT).sortino_ratio = 0) ∧
    (sellOrders p.orders = [] →
      (calculate_performance_metrics p initial start endT).win_ratio = 0) ∧
    (tradeDurations p.orders = [] →
      (calculate_performance_metrics p initial start endT).avg_trade_duration = 0) ∧
    (grossLoss p.orders > 0 →
      (calculate_performance_metrics p initial start endT).profit_factor =
        ((grossProfit p.orders / grossLoss p.orders : ℝ) : EReal)) ∧
    (grossLoss p.orders = 0 → grossProfit p.orders > 0 →
      (calculate_performance_metrics p initial start endT).profit_factor = ⊤) ∧
    (grossLoss p.orders = 0 → grossProfit p.orders = 0 →
      (calculate_performance_metrics p initial start endT).profit_factor = 0) := by
  simp only [calculate_performance_metrics, hne, Bool.false_eq_true, if_false]
  refine ⟨?_, ?_, ?_, ?_, ?_, ?_, ?_, ?_⟩
  · intro hy
    rw [if_neg (not_lt.mpr hy)]
  · intro hv
    rw [if_neg (not_lt.mpr hv)]
  · intro hd
    rw [if_neg (not_lt.mpr hd)]
  · intro hs
    simp [hs]
  · intro hd
    simp [hd]
  · intro hg
    rw [profitFactor, if_pos hg]
  · intro hg0 hp
    rw [profitFactor, if_neg (by rw [hg0]; exact lt_irrefl 0), if_pos hp]
  · intro hg0 hp0
    rw [profitFactor, if_neg (by rw [hg0]; exact lt_irrefl 0),
      if_neg (by rw [hp0]; exact lt_irrefl 0)]

/-- Witness for C7 on three concrete portfolios: a degenerate one-point
run (everything defaults to `0`), one losing SELL (finite profit factor),
and one winning SELL (infinite profit factor). -/
theorem performance_metrics_defaults_witness :
    ((calculate_performance_metrics ⟨10000, [], [(0, 10000)], []⟩
        10000 0 0).annualized_return = 0) ∧
    ((calculate_performance_metrics ⟨10000, [], [(0, 10000)], []⟩
        10000 0 0).sharpe_ratio = 0) ∧
    ((calculate_performance_metrics ⟨10000, [], [(0, 10000)], []⟩
        10000 0 0).sortino_ratio = 0) ∧
    ((calculate_performance_metrics ⟨10000, [], [(0, 10000)], []⟩
        10000 0 0).win_ratio = 0) ∧
    ((calculate_performance_metrics ⟨10000, [], [(0, 10000)], []⟩
        10000 0 0).avg_trade_duration = 0) ∧
    ((calculate_performance_metrics ⟨10000, [], [(0, 10000)], []⟩
        10000 0 0).profit_factor = 0) ∧
    ((calculate_performance_metrics
        ⟨10000, [], [(0, 10000)],
          [⟨"BTCUSDT", "SELL", 1, 95, 3600000, "EXIT_STOP", some (-5),
            some (-5)⟩]⟩ 10000 0 0).profit_factor =
      ((grossProfit [⟨"BTCUSDT", "SELL", 1, 95, 3600000, "EXIT_STOP",
          some (-5), some (-5)⟩] /
        grossLoss [⟨"BTCUSDT", "SELL", 1, 95, 3600000, "EXIT_STOP",
          some (-5), some (-5)⟩] : ℝ) : EReal)) ∧
    ((calculate_performance_metrics
        ⟨10000, [], [(0, 10000)],
          [⟨"BTCUSDT", "SELL", 1, 103, 3600000, "EXIT_PROFIT", some 3,
            some 3⟩]⟩ 10000 0 0).profit_factor = ⊤) := by
  have h1 := performance_metrics_defaults ⟨10000, [], [(0, 10000)], []⟩
    10000 0 0 (by simp)
  have h2 := performance_metrics_defaults
    ⟨10000, [], [(0, 10000)],
      [⟨"BTCUSDT", "SELL", 1, 95, 3600000, "EXIT_STOP", some (-5),
        some (-5)⟩]⟩ 10000 0 0 (by simp)
  have h3 := performance_metrics_defaults
    ⟨10000, [], [(0, 10000)],
      [⟨"BTCUSDT", "SELL", 1, 103, 3600000, "EXIT_PROFIT", some 3,
        some 3⟩]⟩ 10000 0 0 (by simp)
  refine ⟨h1.1 (by norm_num [ms_per_year]),
    h1.2.1 (by norm_num [volatilityOfCurve, returnVariance, equityReturns,
      meanReturn]),
    h1.2.2.1 (by norm_num [downsideDeviation, downsideVariance, equityReturns,
      meanReturn]),
    h1.2.2.2.1 (by simp [sellOrders]),
    h1.2.2.2.2.1 (by simp [tradeDurations]),
    h1.2.2.2.2.2.2.2 (by simp [grossLoss, sellOrders])
      (by simp [grossProfit, sellOrders]),
    h2.2.2.2.2.2.1 (by norm_num [grossLoss, sellOrders, List.filter,
      List.filterMap]),
    h3.2.2.2.2.2.2.1 (by norm_num [grossLoss, sellOrders, List.filter,
      List.filterMap])
      (by norm_num [grossProfit, sellOrders, List.filter, List.filterMap])⟩

/-- The per-symbol history is sorted by timestamp. -/
theorem symbolHistory_sorted (ratings : List GlickoRating) (symbol : String) :
    List.Pairwise (fun a b : ℤ × ℝ => a.1 ≤ b.1) (symbolHistory ratings symbol) := by
  have h := @List.sorted_mergeSort _ (fun x y : ℤ × ℝ => decide (x.1 ≤ y.1))
    (fun a b c h1 h2 => by simp_all; omega)
    (fun a b => by simp [Bool.or_eq_true, decide_eq_true_eq]; omega)
    ((ratings.filter (fun r => r.symbol == symbol)).map
      (fun r => (r.timestamp, r.rating)))
  exact h.imp (by simp)

/-- Unfolding of the `j`-th emitted signal: it is the loop body at window
end `i = N + j`. -/
theorem signalsForSymbol_getD (h : List (ℤ × ℝ)) (N : ℕ) (threshold : ℝ)
    (i : ℕ) (h1 : N ≤ i) (h2 : i < h.length) :
    (signalsForSymbol h N threshold).getD (i - N) (0, 0, "") =
      ((h.getD i (0, 0)).1,
        (MovingStats.calculate
          (((h.drop (i - N)).take N).map (fun x => x.2)) (h.getD i (0, 0)).2).z_score,
        if (MovingStats.calculate
            (((h.drop (i - N)).take N).map (fun x => x.2))
            (h.getD i (0, 0)).2).z_score > threshold then "BUY"
        else if (MovingStats.calculate
            (((h.drop (i - N)).take N).map (fun x => x.2))
            (h.getD i (0, 0)).2).z_score < -threshold then "SELL"
        else "HOLD") := by
  have hlen : i - N < (signalsForSymbol h N threshold).length := by
    simp only [signalsForSymbol, List.length_map, List.length_drop,
      List.length_range]
    omega
  rw [List.getD_eq_getElem _ _ hlen]
  simp only [signalsForSymbol, List.getElem_map, List.getElem_drop,
    List.getElem_range]
  have hi : N + (i - N) = i := by omega
  rw [hi]

/-- The code's `MovingStats` z-score on a length-`N` sample agrees with
the spec's branching formula. -/
theorem movingStats_z_general (values : List ℝ) (cur : ℝ) (N : ℕ)
    (hlen : values.length = N) :
    (MovingStats.calculate values cur).z_score =
      (if values = [] ∨ Real.sqrt ((values.map
            (fun x => (x - values.sum / (N : ℝ)) ^ 2)).sum / (N : ℝ)) = 0
        then 0
        else (cur - values.sum / (N : ℝ)) /
          Real.sqrt ((values.map
            (fun x => (x - values.sum / (N : ℝ)) ^ 2)).sum / (N : ℝ))) := by
  by_cases he : values = []
  · rw [he]
    simp [MovingStats.calculate]
  · have hne : values.isEmpty = false := by simpa [List.isEmpty_iff] using he
    simp only [MovingStats.calculate, hne, Bool.false_eq_true, if_false, hlen]
    rcases lt_or_eq_of_le (Real.sqrt_nonneg
        ((values.map (fun x => (x - values.sum / (N : ℝ)) ^ 2)).sum / (N : ℝ)))
      with hsd | hsd
    · rw [if_pos hsd, if_neg]
      push_neg
      exact ⟨he, ne_of_gt hsd⟩
    · rw [if_neg (by rw [← hsd]; exact lt_irrefl 0), if_pos (Or.inr hsd.symm)]

/-- `zScoreSpec` is that branching formula at the rolling sample. -/
theorem zScoreSpec_eq_branch (h : List (ℤ × ℝ)) (N : ℕ) (i : ℕ) :
    zScoreSpec h N i =
      (if (((h.drop (i - N)).take N).map (fun x => x.2)) = [] ∨
          Real.sqrt (((((h.drop (i - N)).take N).map (fun x => x.2)).map
            (fun x => (x - (((h.drop (i - N)).take N).map (fun x => x.2)).sum /
              (N : ℝ)) ^ 2)).sum / (N : ℝ)) = 0
        then 0
        else ((h.getD i (0, 0)).2 -
            (((h.drop (i - N)).take N).map (fun x => x.2)).sum / (N : ℝ)) /
          Real.sqrt (((((h.drop (i - N)).take N).map (fun x => x.2)).map
            (fun x => (x - (((h.drop (i - N)).take N).map (fun x => x.2)).sum /
              (N : ℝ)) ^ 2)).sum / (N : ℝ))) := rfl

/-- The code's z-score equals the spec's on the rolling window. -/
theorem movingStats_z_eq_spec (h : List (ℤ × ℝ)) (N : ℕ) (i : ℕ)
    (hlen : (((h.drop (i - N)).take N).map (fun x => x.2)).length = N) :
    (MovingStats.calculate (((h.drop (i - N)).take N).map (fun x => x.2))
      (h.getD i (0, 0)).2).z_score = zScoreSpec h N i := by
  rw [zScoreSpec_eq_branch,
    movingStats_z_general (((h.drop (i - N)).take N).map (fun x => x.2))
      (h.getD i (0, 0)).2 N hlen]

/-- C4: per symbol, the signal generator emits nothing for the first `N`
snapshots and exactly one `(timestamp, z, label)` for every index
`i ≥ N`, in chronological order; the z-score follows the spec's rolling
formula (`zScoreSpec`), and the label is BUY above the threshold, SELL
below its negation, HOLD otherwise. -/
theorem signal_generator_contract (ratings : List GlickoRating) (symbol : String)
    (N : ℕ) (threshold : ℝ) :
    (signalsForSymbol (symbolHistory ratings symbol) N threshold).length =
      (symbolHistory ratings symbol).length - N ∧
    List.Pairwise (fun a b : ℤ × ℝ × String => a.1 ≤ b.1)
      (signalsForSymbol (symbolHistory ratings symbol) N threshold) ∧
    (∀ i, N ≤ i → i < (symbolHistory ratings symbol).length →
      (signalsForSymbol (symbolHistory ratings symbol) N threshold).getD (i - N)
          (0, 0, "") =
        (((symbolHistory ratings symbol).getD i (0, 0)).1,
          zScoreSpec (symbolHistory ratings symbol) N i,
          if zScoreSpec (symbolHistory ratings symbol) N i > threshold then "BUY"
          else if zScoreSpec (symbolHistory ratings symbol) N i < -threshold
            then "SELL"
          else "HOLD")) := by
  have hsorted := symbolHistory_sorted ratings symbol
  have hwin : ∀ i, N ≤ i → i < (symbolHistory ratings symbol).length →
      ((((symbolHistory ratings symbol).drop (i - N)).take N).map
        (fun x => x.2)).length = N := by
    intro i hi1 hi2
    simp only [List.length_map, List.length_take, List.length_drop]
    omega
  refine ⟨?_, ?_, ?_⟩
  · simp [signalsForSymbol]
  · have hlen : (signalsForSymbol (symbolHistory ratings symbol) N
        threshold).length = (symbolHistory ratings symbol).length - N := by
      simp [signalsForSymbol]
    have key : ∀ j (hj : j < (signalsForSymbol (symbolHistory ratings symbol) N
        threshold).length),
        ((signalsForSymbol (symbolHistory ratings symbol) N threshold)[j]).1 =
          ((symbolHistory ratings symbol).getD (N + j) (0, 0)).1 := by
      intro j hj
      simp only [signalsForSymbol, List.getElem_map, List.getElem_drop,
        List.getElem_range]
    rw [List.pairwise_iff_getElem]
    intro a b ha hb hab
    rw [key a ha, key b hb]
    have hNa : N + a < (symbolHistory ratings symbol).length := by omega
    have hNb : N + b < (symbolHistory ratings symbol).length := by omega
    rw [List.getD_eq_getElem _ _ hNa, List.getD_eq_getElem _ _ hNb]
    exact List.pairwise_iff_getElem.mp hsorted (N + a) (N + b) hNa hNb (by omega)
  · intro i hi1 hi2
    rw [signalsForSymbol_getD (symbolHistory ratings symbol) N threshold i hi1 hi2,
      movingStats_z_eq_spec (symbolHistory ratings symbol) N i (hwin i hi1 hi2)]

/-- Witness for C4 on a two-snapshot history with window length `1` and
threshold `1`. -/
theorem signal_generator_contract_witness :
    (1 : ℕ) ≤ 1 ∧
    1 < (symbolHistory [⟨"BTCUSDT", 1000, 1500, 200, 0.06, 0.5⟩,
      ⟨"BTCUSDT", 2000, 1600, 190, 0.06, 0.75⟩] "BTCUSDT").length ∧
    (signalsForSymbol (symbolHistory [⟨"BTCUSDT", 1000, 1500, 200, 0.06, 0.5⟩,
        ⟨"BTCUSDT", 2000, 1600, 190, 0.06, 0.75⟩] "BTCUSDT") 1 1).length =
      (symbolHistory [⟨"BTCUSDT", 1000, 1500, 200, 0.06, 0.5⟩,
        ⟨"BTCUSDT", 2000, 1600, 190, 0.06, 0.75⟩] "BTCUSDT").length - 1 ∧
    (signalsForSymbol (symbolHistory [⟨"BTCUSDT", 1000, 1500, 200, 0.06, 0.5⟩,
        ⟨"BTCUSDT", 2000, 1600, 190, 0.06, 0.75⟩] "BTCUSDT") 1 1).getD (1 - 1)
        (0, 0, "") =
      (((symbolHistory [⟨"BTCUSDT", 1000, 1500, 200, 0.06, 0.5⟩,
          ⟨"BTCUSDT", 2000, 1600, 190, 0.06, 0.75⟩] "BTCUSDT").getD 1 (0, 0)).1,
        zScoreSpec (symbolHistory [⟨"BTCUSDT", 1000, 1500, 200, 0.06, 0.5⟩,
          ⟨"BTCUSDT", 2000, 1600, 190, 0.06, 0.75⟩] "BTCUSDT") 1 1,
        if zScoreSpec (symbolHistory [⟨"BTCUSDT", 1000, 1500, 200, 0.06, 0.5⟩,
            ⟨"BTCUSDT", 2000, 1600, 190, 0.06, 0.75⟩] "BTCUSDT") 1 1 > 1
          then "BUY"
        else if zScoreSpec (symbolHistory [⟨"BTCUSDT", 1000, 1500, 200, 0.06, 0.5⟩,
            ⟨"BTCUSDT", 2000, 1600, 190, 0.06, 0.75⟩] "BTCUSDT") 1 1 < -1
          then "SELL"
        else "HOLD") := by
  have hlen : (symbolHistory [⟨"BTCUSDT", 1000, 1500, 200, 0.06, 0.5⟩,
      ⟨"BTCUSDT", 2000, 1600, 190, 0.06, 0.75⟩] "BTCUSDT").length = 2 := by
    simp [symbolHistory, List.length_mergeSort]
  have h := signal_generator_contract [⟨"BTCUSDT", 1000, 1500, 200, 0.06, 0.5⟩,
    ⟨"BTCUSDT", 2000, 1600, 190, 0.06, 0.75⟩] "BTCUSDT" 1 1
  exact ⟨le_refl 1, by rw [hlen]; norm_num, h.1,
    h.2.2 1 (le_refl 1) (by rw [hlen]; norm_num)⟩

/-- A fold that appends exactly one record per element grows the record
list by the input length. -/
theorem foldl_append_length {α β γ : Type} (g : β × List γ → α → β)
    (r : β × List γ → α → γ) :
    ∀ (l : List α) (acc : β × List γ),
      ((l.foldl (fun acc x => (g acc x, acc.2 ++ [r acc x])) acc).2).length =
        acc.2.length + l.length := by
  intro l
  induction l with
  | nil => intro acc; simp
  | cons x xs ih =>
    intro acc
    rw [List.foldl_cons, ih]
    simp
    omega

/-- The window loop of `run_windowed_backtest` never produces the error
variant. -/
theorem windowLoop_ok (config : BacktestConfig) (ratings : List GlickoRating)
    (w s : ℤ) :
    ∀ (n : ℕ) (cur : ℤ), (config.end_time + w - cur).toNat ≤ n →
      ∃ rss, windowLoop config ratings w s cur = Except.ok rss := by
  intro n
  induction n with
  | zero =>
    intro cur hcur
    rw [windowLoop]
    split
    · rename_i h
      exfalso
      omega
    · exact ⟨[], rfl⟩
  | succ n ih =>
    intro cur hcur
    rw [windowLoop]
    split
    · rename_i h
      dsimp only
      split
      · exact ih (cur + s) (by omega)
      · obtain ⟨rest, hrest⟩ := ih (cur + s) (by omega)
        obtain ⟨res, hres⟩ : ∃ res,
            run_backtest { config with start_time := cur, end_time := cur + w }
              (ratings.filter (fun r => decide (r.timestamp ≥ cur) &&
                decide (r.timestamp ≤ cur + w))) = Except.ok res := ⟨_, rfl⟩
        refine ⟨res :: rest, ?_⟩
        rw [hres, hrest]
        rfl
    · exact ⟨[], rfl⟩

/-- C10 (amended): `calculate_ratings` and `run_backtest` return `Ok` on
every input — unsorted input is sorted internally and every record is
processed (one rating per candle) — and `run_windowed_backtest` returns
`Ok` on every input on which its window loop terminates, i.e. whenever the
effective window size in months is positive or the time range is already
exhausted. -/
theorem run_functions_return_ok (klines : List KlineData)
    (config : BacktestConfig) (ratings : List GlickoRating)
    (hw : 0 < config.window_size.getD 12 ∨ config.end_time < config.start_time) :
    (∃ rs, calculate_ratings klines = Except.ok rs ∧ rs.length = klines.length) ∧
    (∃ res, run_backtest config ratings = Except.ok res) ∧
    (∃ rss, run_windowed_backtest config ratings = some (Except.ok rss)) := by
  refine ⟨⟨_, rfl, ?_⟩, ⟨_, rfl⟩, ?_⟩
  · rw [foldl_append_length]
    simp [List.length_mergeSort]
  · rw [run_windowed_backtest]
    rw [if_neg]
    · obtain ⟨rss, hrss⟩ := windowLoop_ok config ratings
        ((config.window_size.getD 12 : ℤ) * 30 * 24 * 60 * 60 * 1000)
        ((config.window_size.getD 12 : ℤ) * 30 * 24 * 60 * 60 * 1000 / 2)
        (config.end_time +
          (config.window_size.getD 12 : ℤ) * 30 * 24 * 60 * 60 * 1000 -
          config.start_time).toNat config.start_time (le_refl _)
      exact ⟨rss, by rw [hrss]⟩
    · rcases hw with hm | hend
      · rintro ⟨hstep, -⟩
        omega
      · rintro ⟨-, hrange⟩
        have : (0 : ℤ) ≤ (config.window_size.getD 12 : ℤ) * 30 * 24 * 60 * 60 * 1000 := by
          positivity
        omega

/-- C10 (counterexample): with `window_size = Some 0` and a non-empty time
range the windowed backtest's `while` loop never terminates (modelled as
`none`), so it does not return `Ok` on every input. -/
theorem run_windowed_zero_window_hangs :
    ¬ ∃ rss, run_windowed_backtest ⟨"BTC", "USDT", 2, 200, 5, 2.5, 0, 0, some 0⟩ []
      = some (Except.ok rss) := by
  have hnone : run_windowed_backtest ⟨"BTC", "USDT", 2, 200, 5, 2.5, 0, 0, some 0⟩ []
      = none := by
    rw [run_windowed_backtest]
    norm_num
  rintro ⟨rss, hr⟩
  rw [hnone] at hr
  cases hr

/-- Witness for C10 (amended) on a concrete run: default window size,
empty inputs. -/
theorem run_functions_return_ok_witness :
    (0 < (Option.none : Option ℕ).getD 12 ∨ (0 : ℤ) < 0) ∧
    ((∃ rs, calculate_ratings [] = Except.ok rs ∧ rs.length = ([] : List KlineData).length) ∧
      (∃ res, run_backtest ⟨"BTC", "USDT", 2, 200, 5, 2.5, 0, 0, none⟩ [] = Except.ok res) ∧
      (∃ rss, run_windowed_backtest ⟨"BTC", "USDT", 2, 200, 5, 2.5, 0, 0, none⟩ []
        = some (Except.ok rss))) :=
  ⟨Or.inl (by norm_num),
    run_functions_return_ok [] ⟨"BTC", "USDT", 2, 200, 5, 2.5, 0, 0, none⟩ []
      (Or.inl (by norm_num))⟩

/-- At the call `(sigma, delta, phi, v) = (1, 0, 1, 1)` the function `f`
is positive at every bracket-probe point `a - k·TAU`, `k ≥ 1`. -/
theorem C2_f_pos (k : ℝ) (hk : 1 ≤ k) :
    0 < f_function (0 - k * TAU) 0 1 1 0 (TAU ^ 2) := by
  have hTAU : TAU = 1 / 2 := by norm_num [TAU]
  have hu0 : 0 < Real.exp (0 - k * TAU) := Real.exp_pos _
  have hu1 : Real.exp (0 - k * TAU) ≤ 1 := by
    rw [Real.exp_le_one_iff, hTAU]
    nlinarith
  set u := Real.exp (0 - k * TAU) with hu
  have h2u : (0 : ℝ) < 2 + u := by linarith
  have key : f_function (0 - k * TAU) 0 1 1 0 (TAU ^ 2) =
      2 * k - u / (2 * (2 + u)) := by
    rw [f_function, ← hu, hTAU]
    field_simp
    ring
  rw [key, sub_pos, div_lt_iff₀ (by positivity)]
  nlinarith

/-- At that call the bracket-step counter of the `while` loop is `1`. -/
theorem C2_bracketK : bracketK 0 1 1 0 (TAU ^ 2) = 1 := by
  have hex : ∃ k : ℕ,
      ¬ f_function (0 - ((k : ℝ) + 1) * TAU) 0 1 1 0 (TAU ^ 2) < 0 :=
    ⟨0, not_lt.mpr (le_of_lt (by simpa using C2_f_pos 1 le_rfl))⟩
  rw [bracketK, dif_pos hex, (Nat.find_eq_zero hex).mpr
    (not_lt.mpr (le_of_lt (by simpa using C2_f_pos 1 le_rfl)))]

/-- C2 (counterexample): at `(sigma, delta, phi, v) = (1, 0, 1, 1)` the
code takes the stepping branch and stops at `k = 1` where `f` is
*positive*; no positive integer `k` makes `f(a - k·TAU)` negative, so the
claim's description of the upper bound (stepping until `f` becomes
negative) is false for this call. -/
theorem bracket_search_direction_counterexample : ¬ bracketSpecClaim 1 0 1 1 := by
  rw [bracketSpecClaim]
  intro hcl
  obtain ⟨k, hk1, hneg, -, -⟩ := hcl (by norm_num)
  have hpos := C2_f_pos (k : ℝ) (by exact_mod_cast hk1)
  rw [show Real.log ((1 : ℝ) ^ 2) = 0 by norm_num [Real.log_one]] at hneg
  norm_num at hneg hpos
  linarith

/-- C2 (amended): the lower bracket bound is `a = ln(sigma²)`; the upper
bound is `ln(delta² - phi² - v)` when that quantity is positive, and
otherwise `a - k·TAU` for the smallest positive integer `k` at which `f`
becomes **non-negative** (the `while` loop steps while `f` is negative),
provided such a `k` exists (otherwise the Rust loop does not return). -/
theorem bracket_search_amended (sigma delta phi v : ℝ) :
    (delta ^ 2 > phi ^ 2 + v →
      initialBigB sigma delta phi v = Real.log (delta ^ 2 - phi ^ 2 - v)) ∧
    (¬ delta ^ 2 > phi ^ 2 + v →
      (∃ j : ℕ, 1 ≤ j ∧
        ¬ f_function (Real.log (sigma ^ 2) - (j : ℝ) * TAU) (delta ^ 2)
            (phi ^ 2) v (Real.log (sigma ^ 2)) (TAU ^ 2) < 0) →
      ∃ k : ℕ, 1 ≤ k ∧
        ¬ f_function (Real.log (sigma ^ 2) - (k : ℝ) * TAU) (delta ^ 2)
            (phi ^ 2) v (Real.log (sigma ^ 2)) (TAU ^ 2) < 0 ∧
        (∀ j : ℕ, 1 ≤ j → j < k →
          f_function (Real.log (sigma ^ 2) - (j : ℝ) * TAU) (delta ^ 2)
            (phi ^ 2) v (Real.log (sigma ^ 2)) (TAU ^ 2) < 0) ∧
        initialBigB sigma delta phi v =
          Real.log (sigma ^ 2) - (k : ℝ) * TAU) := by
  constructor
  · intro hgt
    rw [initialBigB, if_pos hgt]
  · intro hbr hex0
    obtain ⟨j, hj1, hjf⟩ := hex0
    have hex : ∃ k : ℕ,
        ¬ f_function (Real.log (sigma ^ 2) - ((k : ℝ) + 1) * TAU) (delta ^ 2)
            (phi ^ 2) v (Real.log (sigma ^ 2)) (TAU ^ 2) < 0 := by
      refine ⟨j - 1, ?_⟩
      have hcast : ((j - 1 : ℕ) : ℝ) + 1 = (j : ℝ) := by
        rw [Nat.cast_sub hj1]
        push_cast
        ring
      rw [hcast]
      exact hjf
    refine ⟨bracketK (delta ^ 2) (phi ^ 2) v (Real.log (sigma ^ 2)) (TAU ^ 2),
      ?_, ?_, ?_, ?_⟩
    · rw [bracketK, dif_pos hex]
      omega
    · rw [bracketK, dif_pos hex]
      have hspec := Nat.find_spec hex
      have hcast : ((Nat.find hex + 1 : ℕ) : ℝ) = ((Nat.find hex : ℝ) + 1) := by
        push_cast
        ring
      rw [hcast]
      exact hspec
    · intro j2 hj21 hj2k
      rw [bracketK, dif_pos hex] at hj2k
      have hmin := @Nat.find_min _ _ hex (j2 - 1) (by omega)
      rw [not_not] at hmin
      have hcast : ((j2 - 1 : ℕ) : ℝ) + 1 = (j2 : ℝ) := by
        rw [Nat.cast_sub hj21]
        push_cast
        ring
      rw [hcast] at hmin
      exact hmin
    · rw [initialBigB, if_neg hbr]

/-- Witness for C2 (amended) at `(sigma, delta, phi, v) = (1, 0, 1, 1)`:
the loop stops at `k = 1`, where `f` is non-negative. -/
theorem bracket_search_amended_witness :
    (¬ (0 : ℝ) ^ 2 > 1 ^ 2 + 1) ∧
    (∃ j : ℕ, 1 ≤ j ∧
      ¬ f_function (Real.log ((1 : ℝ) ^ 2) - (j : ℝ) * TAU) ((0 : ℝ) ^ 2)
          ((1 : ℝ) ^ 2) 1 (Real.log ((1 : ℝ) ^ 2)) (TAU ^ 2) < 0) ∧
    (∃ k : ℕ, 1 ≤ k ∧
      ¬ f_function (Real.log ((1 : ℝ) ^ 2) - (k : ℝ) * TAU) ((0 : ℝ) ^ 2)
          ((1 : ℝ) ^ 2) 1 (Real.log ((1 : ℝ) ^ 2)) (TAU ^ 2) < 0 ∧
      (∀ j : ℕ, 1 ≤ j → j < k →
        f_function (Real.log ((1 : ℝ) ^ 2) - (j : ℝ) * TAU) ((0 : ℝ) ^ 2)
          ((1 : ℝ) ^ 2) 1 (Real.log ((1 : ℝ) ^ 2)) (TAU ^ 2) < 0) ∧
      initialBigB 1 0 1 1 = Real.log ((1 : ℝ) ^ 2) - (k : ℝ) * TAU) := by
  have hj : ∃ j : ℕ, 1 ≤ j ∧
      ¬ f_function (Real.log ((1 : ℝ) ^ 2) - (j : ℝ) * TAU) ((0 : ℝ) ^ 2)
          ((1 : ℝ) ^ 2) 1 (Real.log ((1 : ℝ) ^ 2)) (TAU ^ 2) < 0 := by
    refine ⟨1, le_refl 1, not_lt.mpr (le_of_lt ?_)⟩
    rw [show Real.log ((1 : ℝ) ^ 2) = 0 by norm_num [Real.log_one]]
    norm_num
    simpa using C2_f_pos 1 le_rfl
  exact ⟨by norm_num, hj, (bracket_search_amended 1 0 1 1).2 (by norm_num) hj⟩

/-- Unfolding of one Illinois iteration on an explicit state tuple. -/
theorem illinoisStep_eq (D P v a t A B fA fB : ℝ) :
    illinoisStep D P v a t (A, B, fA, fB) =
      (if |f_function (A + (A - B) * fA / (fB - fA)) D P v a t| < EPSILON then
        Sum.inr (Real.exp ((A + (A - B) * fA / (fB - fA)) / 2.0))
      else if f_function (A + (A - B) * fA / (fB - fA)) D P v a t * fB < 0 then
        Sum.inl (B, A + (A - B) * fA / (fB - fA), fB,
          f_function (A + (A - B) * fA / (fB - fA)) D P v a t)
      else Sum.inl (A, A + (A - B) * fA / (fB - fA), fA / 2.0,
        f_function (A + (A - B) * fA / (fB - fA)) D P v a t)) := rfl

/-- Unfolding of the loop at a successor fuel value. -/
theorem illinoisGo_succ (D P v a t : ℝ) (n : ℕ) (st : ℝ × ℝ × ℝ × ℝ) :
    illinoisGo D P v a t (n + 1) st =
      (match illinoisStep D P v a t st with
      | Sum.inl st2 => illinoisGo D P v a t n st2
      | Sum.inr r => Sum.inr r) := rfl

/-- The secant point lies between the bracket ends whenever the retained
function values have opposite signs. -/
theorem secant_mem (lo hi A B fA fB : ℝ) (hA1 : lo ≤ A) (hA2 : A ≤ hi)
    (hB1 : lo ≤ B) (hB2 : B ≤ hi) (hprod : fA * fB < 0) :
    lo ≤ A + (A - B) * fA / (fB - fA) ∧ A + (A - B) * fA / (fB - fA) ≤ hi := by
  have hne : fB - fA ≠ 0 := by
    intro h
    have : fB = fA := by linarith
    rw [this] at hprod
    nlinarith [sq_nonneg fA]
  have hC : A + (A - B) * fA / (fB - fA) = (A * fB - B * fA) / (fB - fA) := by
    field_simp
    ring
  rw [hC]
  rcases mul_neg_iff.mp hprod with ⟨hfA, hfB⟩ | ⟨hfA, hfB⟩
  · have hd : fB - fA < 0 := by linarith
    constructor
    · rw [le_div_iff_of_neg hd]
      nlinarith
    · rw [div_le_iff_of_neg hd]
      nlinarith
  · have hd : 0 < fB - fA := by linarith
    constructor
    · rw [le_div_iff₀ hd]
      nlinarith
    · rw [div_le_iff₀ hd]
      nlinarith

/-- The loop's outcome value is `exp(y/2)` for some `y` inside the initial
bracket, as long as the retained function values start with opposite
signs. -/
theorem illinois_in_bracket (D P v a t lo hi : ℝ) :
    ∀ (n : ℕ) (st : ℝ × ℝ × ℝ × ℝ),
      lo ≤ st.1 → st.1 ≤ hi → lo ≤ st.2.1 → st.2.1 ≤ hi →
      st.2.2.1 * st.2.2.2 < 0 →
      ∃ y, lo ≤ y ∧ y ≤ hi ∧
        volatilityOfOutcome (illinoisGo D P v a t n st) = Real.exp (y / 2.0) := by
  intro n
  induction n with
  | zero =>
    intro st h1 h2 _ _ _
    exact ⟨st.1, h1, h2, rfl⟩
  | succ n ih =>
    rintro ⟨A, B, fA, fB⟩ h1 h2 h3 h4 hprod
    simp only at h1 h2 h3 h4 hprod
    obtain ⟨hsec1, hsec2⟩ := secant_mem lo hi A B fA fB h1 h2 h3 h4 hprod
    rw [illinoisGo_succ, illinoisStep_eq]
    by_cases hconv :
        |f_function (A + (A - B) * fA / (fB - fA)) D P v a t| < EPSILON
    · rw [if_pos hconv]
      exact ⟨A + (A - B) * fA / (fB - fA), hsec1, hsec2, rfl⟩
    · rw [if_neg hconv]
      by_cases hflip : f_function (A + (A - B) * fA / (fB - fA)) D P v a t * fB < 0
      · rw [if_pos hflip]
        exact ih (B, A + (A - B) * fA / (fB - fA), fB,
            f_function (A + (A - B) * fA / (fB - fA)) D P v a t)
          h3 h4 hsec1 hsec2 (by nlinarith)
      · rw [if_neg hflip]
        have hfC0 : f_function (A + (A - B) * fA / (fB - fA)) D P v a t ≠ 0 := by
          intro h
          rw [h] at hconv
          exact hconv (by norm_num [EPSILON])
        have hfB0 : fB ≠ 0 := by
          intro h
          rw [h, mul_zero] at hprod
          exact lt_irrefl 0 hprod
        have hpos : 0 < f_function (A + (A - B) * fA / (fB - fA)) D P v a t * fB :=
          lt_of_le_of_ne (not_lt.mp hflip)
            (fun h => mul_ne_zero hfC0 hfB0 h.symm)
        refine ih (A, A + (A - B) * fA / (fB - fA), fA / 2.0,
            f_function (A + (A - B) * fA / (fB - fA)) D P v a t)
          h1 h2 hsec1 hsec2 ?_
        simp only
        nlinarith [sq_nonneg fB, mul_pos hpos hpos]

/-- Every early return of the loop is `exp(c/2)` for an iterate `c` that
passed the `EPSILON` test. -/
theorem illinoisGo_inr (D P v a t : ℝ) :
    ∀ (n : ℕ) (st : ℝ × ℝ × ℝ × ℝ) (r : ℝ),
      illinoisGo D P v a t n st = Sum.inr r →
      ∃ c, |f_function c D P v a t| < EPSILON ∧ r = Real.exp (c / 2.0) := by
  intro n
  induction n with
  | zero =>
    intro st r h
    cases h
  | succ n ih =>
    rintro ⟨A, B, fA, fB⟩ r h
    rw [illinoisGo_succ, illinoisStep_eq] at h
    by_cases hconv :
        |f_function (A + (A - B) * fA / (fB - fA)) D P v a t| < EPSILON
    · rw [if_pos hconv] at h
      cases h
      exact ⟨A + (A - B) * fA / (fB - fA), hconv, rfl⟩
    · rw [if_neg hconv] at h
      by_cases hflip : f_function (A + (A - B) * fA / (fB - fA)) D P v a t * fB < 0
      · rw [if_pos hflip] at h
        exact ih _ r h
      · rw [if_neg hflip] at h
        exact ih _ r h

/-- The volatility returned by `find_new_volatility` is always positive
(it is `exp` of half of some iterate). -/
theorem find_new_volatility_pos (sigma delta phi v : ℝ) :
    0 < find_new_volatility sigma delta phi v := by
  rw [find_new_volatility]
  rcases h : illinoisGo (delta ^ 2) (phi ^ 2) v (Real.log (sigma ^ 2)) (TAU ^ 2)
      50 (illinoisInit sigma delta phi v) with st | r
  · simp only [volatilityOfOutcome]
    exact Real.exp_pos _
  · obtain ⟨c, -, hr⟩ := illinoisGo_inr _ _ _ _ _ 50 _ r h
    simp only [volatilityOfOutcome, hr]
    exact Real.exp_pos _

/-- C1 (amended): every call of the volatility root-finder returns
`exp(y/2)` where `y` either is an iterate passing the `|f(y)| < 1e-6`
test (early convergence), or is the retained endpoint `big_a` of the
state left after the 50-iteration budget — not, in general, the
last-computed iterate `big_b`. -/
theorem find_new_volatility_amended (sigma delta phi v : ℝ) :
    ∃ y, find_new_volatility sigma delta phi v = Real.exp (y / 2.0) ∧
      (|f_function y (delta ^ 2) (phi ^ 2) v (Real.log (sigma ^ 2)) (TAU ^ 2)| <
          EPSILON ∨
        ∃ big_b f_a f_b,
          illinoisGo (delta ^ 2) (phi ^ 2) v (Real.log (sigma ^ 2)) (TAU ^ 2) 50
            (illinoisInit sigma delta phi v) = Sum.inl (y, big_b, f_a, f_b)) := by
  rw [find_new_volatility]
  rcases h : illinoisGo (delta ^ 2) (phi ^ 2) v (Real.log (sigma ^ 2)) (TAU ^ 2)
      50 (illinoisInit sigma delta phi v) with st | r
  · obtain ⟨A, B, fA, fB⟩ := st
    exact ⟨A, rfl, Or.inr ⟨B, fA, fB, rfl⟩⟩
  · obtain ⟨c, hc, hr⟩ := illinoisGo_inr _ _ _ _ _ 50 _ r h
    exact ⟨c, by simp [volatilityOfOutcome, hr], Or.inl hc⟩

/-- `g` is positive and at most one. -/
theorem g_function_bounds (phi : ℝ) :
    0 < g_function phi ∧ g_function phi ≤ 1 := by
  have hx : 0 ≤ 3 * phi ^ 2 / Real.pi ^ 2 := by positivity
  have h1 : (1 : ℝ) ≤ Real.sqrt (1.0 + 3.0 * phi ^ 2 / Real.pi ^ 2) := by
    rw [show (1 : ℝ) = Real.sqrt 1 by rw [Real.sqrt_one]]
    apply Real.sqrt_le_sqrt
    norm_num
    linarith
  constructor
  · rw [g_function]
    positivity
  · rw [g_function]
    rw [div_le_one (by linarith)]
    linarith

/-- The square of `g`. -/
theorem g_function_sq (phi : ℝ) :
    (g_function phi) ^ 2 = 1 / (1.0 + 3.0 * phi ^ 2 / Real.pi ^ 2) := by
  rw [g_function, div_pow, Real.sq_sqrt (by positivity)]
  norm_num

/-- Structure of `update_rating` for a player whose rating equals the
opponent benchmark rating `1500` (so `E = 1/2` exactly), with opponent
RD `50`. -/
theorem update_rating_equal (s : String) (RD vol score : ℝ) :
    ∃ nv nphi : ℝ,
      nv = find_new_volatility vol
        ((4 / (g_function (50 / GLICKO2_SCALE)) ^ 2) *
          g_function (50 / GLICKO2_SCALE) * (score - 1 / 2))
        (RD / GLICKO2_SCALE) (4 / (g_function (50 / GLICKO2_SCALE)) ^ 2) ∧
      nphi = 1.0 / Real.sqrt (1 / ((RD / GLICKO2_SCALE) ^ 2 + nv ^ 2) +
        1 / (4 / (g_function (50 / GLICKO2_SCALE)) ^ 2)) ∧
      update_rating ⟨s, 1500, RD, vol⟩ 1500 50 score =
        ⟨s, GLICKO2_SCALE * (nphi ^ 2 * g_function (50 / GLICKO2_SCALE) *
            (score - 1 / 2)) + 1500.0,
          GLICKO2_SCALE * nphi, nv⟩ := by
  refine ⟨_, _, rfl, rfl, ?_⟩
  rw [update_rating]
  simp only [GlickoPlayer.to_glicko2_scale, GlickoPlayer.from_glicko2_scale,
    e_function]
  norm_num
  have hvarg : (2 : ℝ) * (2 * ((g_function (50 / GLICKO2_SCALE)) ^ 2)⁻¹) =
      4 / (g_function (50 / GLICKO2_SCALE)) ^ 2 := by
    ring
  rw [hvarg]
  have hsq : ∀ nv : ℝ,
      (Real.sqrt ((RD / GLICKO2_SCALE) ^ 2 + nv ^ 2)) ^ 2 =
        (RD / GLICKO2_SCALE) ^ 2 + nv ^ 2 :=
    fun nv => Real.sq_sqrt (by positivity)
  rw [hsq]
  refine ⟨Or.inl (Or.inl (Or.inl ?_)), Or.inl ?_, rfl⟩
  · congr 1
    ring
  · congr 1
    ring

/-- For the volatility solve arising from an equal-rating update with a
0/1 score (`delta² = v`, `v ≥ 4`, prior volatility `0.06`), `f` is
positive at every probe point `a - k·TAU`, `k ≥ 1`. -/
theorem f_pos_at_shift (phi v delta : ℝ) (hv : 4 ≤ v) (hd : delta ^ 2 = v)
    (k : ℝ) (hk : 1 ≤ k) :
    0 < f_function (Real.log ((0.06 : ℝ) ^ 2) - k * TAU) (delta ^ 2) (phi ^ 2)
      v (Real.log ((0.06 : ℝ) ^ 2)) (TAU ^ 2) := by
  have hTAU : TAU = 1 / 2 := by norm_num [TAU]
  have ha : Real.exp (Real.log ((0.06 : ℝ) ^ 2)) = (0.06 : ℝ) ^ 2 :=
    Real.exp_log (by norm_num)
  set a := Real.log ((0.06 : ℝ) ^ 2) with haa
  have hu0 : 0 < Real.exp (a - k * TAU) := Real.exp_pos _
  have hu1 : Real.exp (a - k * TAU) ≤ (0.06 : ℝ) ^ 2 := by
    rw [← ha]
    apply Real.exp_le_exp.mpr
    rw [hTAU]
    nlinarith
  set u := Real.exp (a - k * TAU) with hu
  rw [f_function, ← hu, hd]
  have h2 : (a - k * TAU - a) / TAU ^ 2 = -(2 * k) := by
    rw [hTAU]
    ring
  rw [h2, sub_neg_eq_add]
  have hnum : u * (v - phi ^ 2 - v - u) = -(u * (phi ^ 2 + u)) := by ring
  rw [hnum, neg_div]
  have hT : (4 : ℝ) ≤ phi ^ 2 + v + u := by nlinarith [sq_nonneg phi]
  have hden : 0 < 2.0 * (phi ^ 2 + v + u) ^ 2 := by positivity
  have hlt : u * (phi ^ 2 + u) / (2.0 * (phi ^ 2 + v + u) ^ 2) < 2 * k := by
    rw [div_lt_iff₀ hden]
    have h5 : phi ^ 2 + u ≤ phi ^ 2 + v + u := by linarith
    have h6 : u * (phi ^ 2 + u) ≤ u * (phi ^ 2 + v + u) :=
      mul_le_mul_of_nonneg_left h5 hu0.le
    have h7 : u * (phi ^ 2 + v + u) ≤ (0.06 : ℝ) ^ 2 * (phi ^ 2 + v + u) :=
      mul_le_mul_of_nonneg_right hu1 (by linarith)
    nlinarith [mul_nonneg (sub_nonneg.mpr hk) (sq_nonneg (phi ^ 2 + v + u)),
      mul_nonneg (by linarith : (0 : ℝ) ≤ phi ^ 2 + v + u - 4)
        (by linarith : (0 : ℝ) ≤ phi ^ 2 + v + u)]
  linarith

/-- For the same family of calls `f` is negative at the lower bracket end
`a` itself. -/
theorem f_neg_at_a (phi v delta : ℝ) (hv : 4 ≤ v) (hd : delta ^ 2 = v) :
    f_function (Real.log ((0.06 : ℝ) ^ 2)) (delta ^ 2) (phi ^ 2) v
      (Real.log ((0.06 : ℝ) ^ 2)) (TAU ^ 2) < 0 := by
  have ha : Real.exp (Real.log ((0.06 : ℝ) ^ 2)) = (0.06 : ℝ) ^ 2 :=
    Real.exp_log (by norm_num)
  rw [f_function, ha, hd, sub_self, zero_div, sub_zero]
  apply div_neg_of_neg_of_pos
  · nlinarith [sq_nonneg phi]
  · positivity

/-- For that family the bracket-step counter is `1`. -/
theorem bracketK_family (phi v delta : ℝ) (hv : 4 ≤ v) (hd : delta ^ 2 = v) :
    bracketK (delta ^ 2) (phi ^ 2) v (Real.log ((0.06 : ℝ) ^ 2)) (TAU ^ 2) = 1 := by
  have hp1 : ¬ f_function (Real.log ((0.06 : ℝ) ^ 2) - (((0 : ℕ) : ℝ) + 1) * TAU)
      (delta ^ 2) (phi ^ 2) v (Real.log ((0.06 : ℝ) ^ 2)) (TAU ^ 2) < 0 := by
    push_cast
    rw [zero_add]
    exact not_lt.mpr (f_pos_at_shift phi v delta hv hd 1 le_rfl).le
  have hex : ∃ k : ℕ,
      ¬ f_function (Real.log ((0.06 : ℝ) ^ 2) - ((k : ℝ) + 1) * TAU)
        (delta ^ 2) (phi ^ 2) v (Real.log ((0.06 : ℝ) ^ 2)) (TAU ^ 2) < 0 :=
    ⟨0, hp1⟩
  rw [bracketK, dif_pos hex, (Nat.find_eq_zero hex).mpr hp1]

/-- For that family the initial upper bracket bound is `a - TAU`. -/
theorem initialBigB_family (phi v delta : ℝ) (hv : 4 ≤ v) (hd : delta ^ 2 = v) :
    initialBigB 0.06 delta phi v = Real.log ((0.06 : ℝ) ^ 2) - TAU := by
  rw [initialBigB, if_neg (by rw [hd]; nlinarith [sq_nonneg phi]),
    bracketK_family phi v delta hv hd]
  norm_num

/-- For that family the returned volatility is `exp(y/2)` with
`a - TAU ≤ y ≤ a`. -/
theorem vol_bracket_family (phi v delta : ℝ) (hv : 4 ≤ v) (hd : delta ^ 2 = v) :
    ∃ y, Real.log ((0.06 : ℝ) ^ 2) - TAU ≤ y ∧ y ≤ Real.log ((0.06 : ℝ) ^ 2) ∧
      find_new_volatility 0.06 delta phi v = Real.exp (y / 2.0) := by
  have hB := initialBigB_family phi v delta hv hd
  have hinit : illinoisInit 0.06 delta phi v =
      (Real.log ((0.06 : ℝ) ^ 2), Real.log ((0.06 : ℝ) ^ 2) - TAU,
        f_function (Real.log ((0.06 : ℝ) ^ 2)) (delta ^ 2) (phi ^ 2) v
          (Real.log ((0.06 : ℝ) ^ 2)) (TAU ^ 2),
        f_function (Real.log ((0.06 : ℝ) ^ 2) - TAU) (delta ^ 2) (phi ^ 2) v
          (Real.log ((0.06 : ℝ) ^ 2)) (TAU ^ 2)) := by
    rw [illinoisInit, hB]
  rw [find_new_volatility, hinit]
  have hpos1 : 0 < f_function (Real.log ((0.06 : ℝ) ^ 2) - TAU) (delta ^ 2)
      (phi ^ 2) v (Real.log ((0.06 : ℝ) ^ 2)) (TAU ^ 2) := by
    have := f_pos_at_shift phi v delta hv hd 1 le_rfl
    rwa [one_mul] at this
  exact illinois_in_bracket (delta ^ 2) (phi ^ 2) v (Real.log ((0.06 : ℝ) ^ 2))
    (TAU ^ 2) (Real.log ((0.06 : ℝ) ^ 2) - TAU) (Real.log ((0.06 : ℝ) ^ 2)) 50 _
    (by norm_num [TAU]) (le_refl _) (le_refl _) (by norm_num [TAU])
    (mul_neg_of_neg_of_pos (f_neg_at_a phi v delta hv hd) hpos1)

/-- `exp(a/2) = 0.06` for `a = ln(0.06²)`. -/
theorem exp_half_log_006 : Real.exp (Real.log ((0.06 : ℝ) ^ 2) / 2) = 0.06 := by
  rw [show Real.log ((0.06 : ℝ) ^ 2) = 2 * Real.log 0.06 by
    rw [Real.log_pow]; push_cast; ring]
  rw [show (2 : ℝ) * Real.log 0.06 / 2 = Real.log 0.06 by ring]
  exact Real.exp_log (by norm_num)

/-- A crude bound: `exp(-1/4) ≥ 0.7`. -/
theorem exp_neg_quarter_ge : (7 : ℝ) / 10 ≤ Real.exp (-(1 / 4)) := by
  have he : (Real.exp (1 / 4 : ℝ)) ^ 4 = Real.exp 1 := by
    rw [← Real.exp_nat_mul]
    norm_num
  have hle : Real.exp (1 / 4 : ℝ) ≤ 10 / 7 := by
    by_contra hgt
    push_neg at hgt
    have h4 : (10 / 7 : ℝ) ^ 4 < (Real.exp (1 / 4 : ℝ)) ^ 4 :=
      pow_lt_pow_left₀ hgt (by norm_num) (by norm_num)
    rw [he] at h4
    have hd9 := Real.exp_one_lt_d9
    norm_num at h4
    linarith
  have hp : 0 < Real.exp (1 / 4 : ℝ) := Real.exp_pos _
  rw [Real.exp_neg, ← one_div, le_div_iff₀ hp]
  nlinarith

set_option maxHeartbeats 2000000 in
/-- C8 (counterexample): for the player `(rating 1500, RD 0.001,
volatility 0.06)` against the benchmark `(1500, 50)`, an update with the
winning score `1.0` strictly *increases* the rating deviation (the
volatility term dwarfs the tiny prior deviation), contradicting the
claimed strict decrease. -/
theorem update_rating_rd_can_increase :
    (0.001 : ℝ) <
      (update_rating ⟨"BTCUSDT", 1500, 0.001, 0.06⟩ 1500 50 1.0).rating_deviation := by
  obtain ⟨nv, nphi, hnv, hnphi, heq⟩ := update_rating_equal "BTCUSDT" 0.001 0.06 1.0
  rw [heq]
  obtain ⟨hg0, hg1⟩ := g_function_bounds (50 / GLICKO2_SCALE)
  set g := g_function (50 / GLICKO2_SCALE) with hgdef
  have hgsq : 0 < g ^ 2 := by positivity
  have hv4 : (4 : ℝ) ≤ 4 / g ^ 2 := by
    rw [le_div_iff₀ hgsq]
    nlinarith
  have hd : ((4 / g ^ 2) * g * ((1.0 : ℝ) - 1 / 2)) ^ 2 = 4 / g ^ 2 := by
    have hgne : g ≠ 0 := ne_of_gt hg0
    field_simp
    ring
  obtain ⟨y, hy1, hy2, hyv⟩ := vol_bracket_family (0.001 / GLICKO2_SCALE)
    (4 / g ^ 2) ((4 / g ^ 2) * g * ((1.0 : ℝ) - 1 / 2)) hv4 hd
  have hnveq : nv = Real.exp (y / 2.0) := hnv.trans hyv
  have hTAU : TAU = 1 / 2 := by norm_num [TAU]
  have hnv_lo : (0.042 : ℝ) ≤ nv := by
    rw [hnveq]
    have h1 : Real.log ((0.06 : ℝ) ^ 2) / 2 - 1 / 4 ≤ y / 2.0 := by
      rw [hTAU] at hy1
      norm_num
      linarith
    calc (0.042 : ℝ) = 0.06 * (7 / 10) := by norm_num
    _ ≤ 0.06 * Real.exp (-(1 / 4)) := by nlinarith [exp_neg_quarter_ge]
    _ = Real.exp (Real.log ((0.06 : ℝ) ^ 2) / 2) * Real.exp (-(1 / 4)) := by
        rw [exp_half_log_006]
    _ = Real.exp (Real.log ((0.06 : ℝ) ^ 2) / 2 - 1 / 4) := by
        rw [← Real.exp_add]
        ring_nf
    _ ≤ Real.exp (y / 2.0) := Real.exp_le_exp.mpr h1
  have hnv2 : (0.042 : ℝ) ^ 2 ≤ nv ^ 2 := by nlinarith
  have hden_pos : (0 : ℝ) < (0.001 / GLICKO2_SCALE) ^ 2 + nv ^ 2 := by
    nlinarith [sq_nonneg ((0.001 : ℝ) / GLICKO2_SCALE)]
  have hS_hi : 1 / ((0.001 / GLICKO2_SCALE) ^ 2 + nv ^ 2) + 1 / (4 / g ^ 2) ≤
      1 / ((0.042 : ℝ) ^ 2) + 1 / 4 := by
    have h1 : 1 / ((0.001 / GLICKO2_SCALE) ^ 2 + nv ^ 2) ≤ 1 / ((0.042 : ℝ) ^ 2) := by
      apply one_div_le_one_div_of_le (by norm_num)
      nlinarith [sq_nonneg ((0.001 : ℝ) / GLICKO2_SCALE)]
    have h2 : 1 / (4 / g ^ 2) ≤ 1 / (4 : ℝ) :=
      one_div_le_one_div_of_le (by norm_num) hv4
    linarith
  have hS_pos : (0 : ℝ) <
      1 / ((0.001 / GLICKO2_SCALE) ^ 2 + nv ^ 2) + 1 / (4 / g ^ 2) := by
    have h1 : (0 : ℝ) < 1 / ((0.001 / GLICKO2_SCALE) ^ 2 + nv ^ 2) := by positivity
    have h2 : (0 : ℝ) ≤ 1 / (4 / g ^ 2) := by positivity
    linarith
  have hsqrtS : Real.sqrt
      (1 / ((0.001 / GLICKO2_SCALE) ^ 2 + nv ^ 2) + 1 / (4 / g ^ 2)) ≤ 23.9 := by
    calc Real.sqrt (1 / ((0.001 / GLICKO2_SCALE) ^ 2 + nv ^ 2) + 1 / (4 / g ^ 2))
        ≤ Real.sqrt ((23.9 : ℝ) ^ 2) := by
          apply Real.sqrt_le_sqrt
          calc 1 / ((0.001 / GLICKO2_SCALE) ^ 2 + nv ^ 2) + 1 / (4 / g ^ 2) ≤
              1 / ((0.042 : ℝ) ^ 2) + 1 / 4 := hS_hi
          _ ≤ (23.9 : ℝ) ^ 2 := by norm_num
    _ = 23.9 := Real.sqrt_sq (by norm_num)
  have hsqrtS_pos : 0 < Real.sqrt
      (1 / ((0.001 / GLICKO2_SCALE) ^ 2 + nv ^ 2) + 1 / (4 / g ^ 2)) :=
    Real.sqrt_pos.mpr hS_pos
  have hnphi_lo : (1 : ℝ) / 23.9 ≤ nphi := by
    rw [hnphi]
    have := one_div_le_one_div_of_le hsqrtS_pos hsqrtS
    norm_num at this ⊢
    convert this using 2
  simp only [GlickoPlayer.rating_deviation]
  have hscale : GLICKO2_SCALE = 173.7178 := rfl
  nlinarith [hnphi_lo]

/-- Numeric upper bound on the estimated variance for the benchmark
opponent RD `50`: `v = 4/g² ≤ 4.11`. -/
theorem v_upper_bound : 4 / (g_function (50 / GLICKO2_SCALE)) ^ 2 ≤ 4.11 := by
  rw [g_function_sq, one_div, div_inv_eq_mul]
  have hpi := Real.pi_gt_d6
  have hpi2 : (9.8696 : ℝ) ≤ Real.pi ^ 2 := by nlinarith
  have hx : 3.0 * (50 / GLICKO2_SCALE) ^ 2 / Real.pi ^ 2 ≤
      3.0 * (50 / GLICKO2_SCALE) ^ 2 / 9.8696 := by
    apply div_le_div_of_nonneg_left (by positivity) (by norm_num) hpi2
  have : (3.0 : ℝ) * (50 / GLICKO2_SCALE) ^ 2 / 9.8696 ≤ 0.0255 := by
    rw [div_le_iff₀ (by norm_num)]
    norm_num [GLICKO2_SCALE]
  nlinarith

/-- The rating always moves in the direction of the score for an
equal-rating update: up for a win (`1.0`), down for a loss (`0.0`). -/
theorem update_rating_rating_direction (s : String) (RD vol : ℝ) :
    1500 < (update_rating ⟨s, 1500, RD, vol⟩ 1500 50 1.0).rating ∧
    (update_rating ⟨s, 1500, RD, vol⟩ 1500 50 0.0).rating < 1500 := by
  obtain ⟨hg0, hg1⟩ := g_function_bounds (50 / GLICKO2_SCALE)
  constructor
  · obtain ⟨nv, nphi, hnv, hnphi, heq⟩ := update_rating_equal s RD vol 1.0
    rw [heq]
    simp only [GlickoPlayer.rating]
    have hnvpos : 0 < nv := by
      rw [hnv]
      exact find_new_volatility_pos _ _ _ _
    have hden : 0 < (RD / GLICKO2_SCALE) ^ 2 + nv ^ 2 := by
      nlinarith [sq_nonneg (RD / GLICKO2_SCALE)]
    have hS : 0 < 1 / ((RD / GLICKO2_SCALE) ^ 2 + nv ^ 2) +
        1 / (4 / (g_function (50 / GLICKO2_SCALE)) ^ 2) := by
      have h1 : 0 < 1 / ((RD / GLICKO2_SCALE) ^ 2 + nv ^ 2) := by positivity
      have h2 : (0 : ℝ) ≤ 1 / (4 / (g_function (50 / GLICKO2_SCALE)) ^ 2) := by
        positivity
      linarith
    have hnphi_pos : 0 < nphi := by
      rw [hnphi]
      positivity
    have hsc : (0 : ℝ) < GLICKO2_SCALE := by norm_num [GLICKO2_SCALE]
    nlinarith [mul_pos (mul_pos (pow_pos hnphi_pos 2) hg0) hsc]
  · obtain ⟨nv, nphi, hnv, hnphi, heq⟩ := update_rating_equal s RD vol 0.0
    rw [heq]
    simp only [GlickoPlayer.rating]
    have hnvpos : 0 < nv := by
      rw [hnv]
      exact find_new_volatility_pos _ _ _ _
    have hden : 0 < (RD / GLICKO2_SCALE) ^ 2 + nv ^ 2 := by
      nlinarith [sq_nonneg (RD / GLICKO2_SCALE)]
    have hS : 0 < 1 / ((RD / GLICKO2_SCALE) ^ 2 + nv ^ 2) +
        1 / (4 / (g_function (50 / GLICKO2_SCALE)) ^ 2) := by
      have h1 : 0 < 1 / ((RD / GLICKO2_SCALE) ^ 2 + nv ^ 2) := by positivity
      have h2 : (0 : ℝ) ≤ 1 / (4 / (g_function (50 / GLICKO2_SCALE)) ^ 2) := by
        positivity
      linarith
    have hnphi_pos : 0 < nphi := by
      rw [hnphi]
      positivity
    have hsc : (0 : ℝ) < GLICKO2_SCALE := by norm_num [GLICKO2_SCALE]
    nlinarith [mul_pos (mul_pos (pow_pos hnphi_pos 2) hg0) hsc]

set_option maxHeartbeats 2000000 in
/-- For the default prior `(RD 350, volatility 0.06)` an equal-rating
update with a decisive score (`0` or `1`) strictly shrinks the rating
deviation. -/
theorem update_rating_rd_dec_default (s : String) (score : ℝ)
    (ht : (score - 1 / 2) ^ 2 = 1 / 4) :
    (update_rating ⟨s, 1500, 350, 0.06⟩ 1500 50 score).rating_deviation < 350 := by
  obtain ⟨nv, nphi, hnv, hnphi, heq⟩ := update_rating_equal s 350 0.06 score
  rw [heq]
  simp only [GlickoPlayer.rating_deviation]
  obtain ⟨hg0, hg1⟩ := g_function_bounds (50 / GLICKO2_SCALE)
  set g := g_function (50 / GLICKO2_SCALE) with hgdef
  have hgsq : 0 < g ^ 2 := by positivity
  have hgne : g ≠ 0 := ne_of_gt hg0
  have hv4 : (4 : ℝ) ≤ 4 / g ^ 2 := by
    rw [le_div_iff₀ hgsq]
    nlinarith
  have hd : ((4 / g ^ 2) * g * (score - 1 / 2)) ^ 2 = 4 / g ^ 2 := by
    have h1 : ((4 / g ^ 2) * g * (score - 1 / 2)) ^ 2 =
        16 * (score - 1 / 2) ^ 2 / g ^ 2 := by
      field_simp
      ring
    rw [h1, ht]
    ring
  obtain ⟨y, hy1, hy2, hyv⟩ := vol_bracket_family (350 / GLICKO2_SCALE)
    (4 / g ^ 2) ((4 / g ^ 2) * g * (score - 1 / 2)) hv4 hd
  have hnveq : nv = Real.exp (y / 2.0) := hnv.trans hyv
  have hnv_pos : 0 < nv := by
    rw [hnveq]
    exact Real.exp_pos _
  have hnv_hi : nv ≤ 0.06 := by
    rw [hnveq, ← exp_half_log_006]
    apply Real.exp_le_exp.mpr
    norm_num
    linarith
  have hden_pos : 0 < ((350 : ℝ) / GLICKO2_SCALE) ^ 2 + nv ^ 2 := by
    nlinarith [sq_nonneg ((350 : ℝ) / GLICKO2_SCALE)]
  have h1 : 1 / (((350 : ℝ) / GLICKO2_SCALE) ^ 2 + 0.0036) ≤
      1 / (((350 : ℝ) / GLICKO2_SCALE) ^ 2 + nv ^ 2) :=
    one_div_le_one_div_of_le hden_pos (by nlinarith)
  have h2 : (1 : ℝ) / 4.11 ≤ 1 / (4 / g ^ 2) := by
    have hvu := v_upper_bound
    rw [← hgdef] at hvu
    exact one_div_le_one_div_of_le (by positivity) hvu
  have hnum : 1 / (((350 : ℝ) / GLICKO2_SCALE) ^ 2) <
      1 / (((350 : ℝ) / GLICKO2_SCALE) ^ 2 + 0.0036) + 1 / 4.11 := by
    norm_num [GLICKO2_SCALE]
  have hSgt : 1 / (((350 : ℝ) / GLICKO2_SCALE) ^ 2) <
      1 / (((350 : ℝ) / GLICKO2_SCALE) ^ 2 + nv ^ 2) + 1 / (4 / g ^ 2) := by
    linarith
  have hphiq_pos : (0 : ℝ) < 350 / GLICKO2_SCALE := by norm_num [GLICKO2_SCALE]
  have hsqrt_gt : 1 / ((350 : ℝ) / GLICKO2_SCALE) <
      Real.sqrt (1 / (((350 : ℝ) / GLICKO2_SCALE) ^ 2 + nv ^ 2) +
        1 / (4 / g ^ 2)) := by
    apply (Real.lt_sqrt (by positivity)).mpr
    calc (1 / ((350 : ℝ) / GLICKO2_SCALE)) ^ 2
        = 1 / (((350 : ℝ) / GLICKO2_SCALE) ^ 2) := by
          rw [div_pow]
          norm_num
    _ < _ := hSgt
  have hnphi_lt : nphi < 350 / GLICKO2_SCALE := by
    rw [hnphi]
    have h3 := one_div_lt_one_div_of_lt (by positivity) hsqrt_gt
    rw [one_div_one_div] at h3
    norm_num at h3 ⊢
    exact h3
  calc GLICKO2_SCALE * nphi < GLICKO2_SCALE * (350 / GLICKO2_SCALE) :=
        mul_lt_mul_of_pos_left hnphi_lt (by norm_num [GLICKO2_SCALE])
  _ = 350 := by norm_num [GLICKO2_SCALE]

/-- C8 (amended): in an equal-rating update against the 1500-rated
benchmark, a win raises the rating and a loss lowers it for every
positive prior deviation and volatility; and for the default prior
`(RD 350, vol 0.06)` the rating deviation strictly decreases after a
decisive outcome (the unconditional "RD always decreases" form of the
claim is false: `update_rating_rd_can_increase` exhibits a tiny prior
RD that grows). -/
theorem update_rating_amended (s : String) (RD vol : ℝ)
    (hRD : 0 < RD) (hvol : 0 < vol) :
    (1500 < (update_rating ⟨s, 1500, RD, vol⟩ 1500 50 1.0).rating) ∧
    ((update_rating ⟨s, 1500, RD, vol⟩ 1500 50 0.0).rating < 1500) ∧
    ((update_rating ⟨s, 1500, 350, 0.06⟩ 1500 50 1.0).rating_deviation < 350) ∧
    ((update_rating ⟨s, 1500, 350, 0.06⟩ 1500 50 0.0).rating_deviation < 350) := by
  obtain ⟨hup, hdown⟩ := update_rating_rating_direction s RD vol
  refine ⟨hup, hdown, ?_, ?_⟩
  · exact update_rating_rd_dec_default s 1.0 (by norm_num)
  · exact update_rating_rd_dec_default s 0.0 (by norm_num)

/-- Witness for `update_rating_amended` at the default prior. -/
theorem update_rating_amended_witness :
    (1500 < (update_rating ⟨"BTCUSDT", 1500, 350, 0.06⟩ 1500 50 1.0).rating) ∧
    ((update_rating ⟨"BTCUSDT", 1500, 350, 0.06⟩ 1500 50 0.0).rating < 1500) ∧
    ((update_rating ⟨"BTCUSDT", 1500, 350, 0.06⟩ 1500 50 1.0).rating_deviation < 350) ∧
    ((update_rating ⟨"BTCUSDT", 1500, 350, 0.06⟩ 1500 50 0.0).rating_deviation < 350) :=
  update_rating_amended "BTCUSDT" 350 0.06 (by norm_num) (by norm_num)

/-- A lower bound on `exp 50`, enough to show the stuck input's initial
`f_a` exceeds the budget `2·10⁶·2⁵⁰`. -/
theorem C1_exp50_lb : (46 : ℝ) * 10 ^ 20 ≤ Real.exp 50 := by
  have h1 : (2.718 : ℝ) ≤ Real.exp 1 := by
    have := Real.exp_one_gt_d9
    linarith
  have h2 : (2.718 : ℝ) ^ 50 ≤ Real.exp 1 ^ 50 :=
    pow_le_pow_left₀ (by norm_num) h1 50
  have h3 : Real.exp 1 ^ 50 = Real.exp 50 := by
    rw [← Real.exp_nat_mul]
    norm_num
  rw [h3] at h2
  refine le_trans ?_ h2
  norm_num

/-- On `[49.99, 50]` the stuck input's `f` is squeezed between `-4x` and
`-4x + 1/198`: the exponential term is nonnegative and below `1/198`. -/
theorem C1_F_bounds (x : ℝ) (h1 : 4999 / 100 ≤ x) (h2 : x ≤ 50) :
    -(4 * x) ≤ f_function x (Real.exp 50 + 1 / 100) 0 (1 / 100) 0 (1 / 4) ∧
      f_function x (Real.exp 50 + 1 / 100) 0 (1 / 100) 0 (1 / 4) ≤
        -(4 * x) + 1 / 198 := by
  have hex : 0 < Real.exp x := Real.exp_pos x
  have hle : Real.exp x ≤ Real.exp 50 := Real.exp_le_exp.mpr h2
  have hF : f_function x (Real.exp 50 + 1 / 100) 0 (1 / 100) 0 (1 / 4) =
      Real.exp x * (Real.exp 50 - Real.exp x) /
        (2 * (1 / 100 + Real.exp x) ^ 2) - 4 * x := by
    rw [f_function]
    ring_nf
  have hden : (0 : ℝ) < 2 * (1 / 100 + Real.exp x) ^ 2 := by positivity
  have hsmall : Real.exp (1 / 100) ≤ 100 / 99 := by
    have h := Real.add_one_le_exp (-(1 / 100) : ℝ)
    rw [Real.exp_neg] at h
    have hp : 0 < Real.exp (1 / 100) := Real.exp_pos _
    have hEi : Real.exp (1 / 100) * (Real.exp (1 / 100))⁻¹ = 1 :=
      mul_inv_cancel₀ (ne_of_gt hp)
    nlinarith [mul_le_mul_of_nonneg_left h hp.le]
  have he50x : Real.exp (50 - x) ≤ 100 / 99 :=
    le_trans (Real.exp_le_exp.mpr (by linarith)) hsmall
  have heq : Real.exp 50 = Real.exp (50 - x) * Real.exp x := by
    rw [← Real.exp_add]
    ring_nf
  have he1 : Real.exp 50 ≤ 100 / 99 * Real.exp x := by
    rw [heq]
    exact mul_le_mul_of_nonneg_right he50x hex.le
  constructor
  · rw [hF]
    have hT : 0 ≤ Real.exp x * (Real.exp 50 - Real.exp x) /
        (2 * (1 / 100 + Real.exp x) ^ 2) := by
      apply div_nonneg _ hden.le
      nlinarith
    linarith
  · rw [hF]
    have hT : Real.exp x * (Real.exp 50 - Real.exp x) /
        (2 * (1 / 100 + Real.exp x) ^ 2) ≤ 1 / 198 := by
      rw [div_le_iff₀ hden]
      nlinarith [mul_le_mul_of_nonneg_left he1 hex.le]
    linarith

set_option maxHeartbeats 1000000 in
/-- For the stuck input, as long as the budget on the retained (halving)
`f_a` holds, the loop keeps the lower end `0`, keeps the upper iterate
inside `[49.99, 50]`, and never converges or flips sign. -/
theorem C1_stuck_go (n : ℕ) :
    ∀ B fA : ℝ, 50 - 1 / 100 * (1 / 2) ^ n ≤ B → B ≤ 50 →
      2000000 * 2 ^ n ≤ fA →
      ∃ B2 fA2 : ℝ,
        illinoisGo (Real.exp 50 + 1 / 100) 0 (1 / 100) 0 (1 / 4) n
            (0, B, fA,
              f_function B (Real.exp 50 + 1 / 100) 0 (1 / 100) 0 (1 / 4)) =
          Sum.inl (0, B2, fA2,
            f_function B2 (Real.exp 50 + 1 / 100) 0 (1 / 100) 0 (1 / 4)) ∧
        4999 / 100 ≤ B2 ∧ B2 ≤ 50 := by
  induction n with
  | zero =>
    intro B fA hBlo hBhi hfA
    refine ⟨B, fA, rfl, ?_, hBhi⟩
    norm_num at hBlo
    linarith
  | succ n ih =>
    intro B fA hBlo hBhi hfA
    have hpow0 : (0 : ℝ) < (1 / 2 : ℝ) ^ n := by positivity
    have hpow1 : ((1 / 2 : ℝ)) ^ n ≤ 1 := pow_le_one₀ (by norm_num) (by norm_num)
    have hpow1s : ((1 / 2 : ℝ)) ^ (n + 1) ≤ 1 := pow_le_one₀ (by norm_num) (by norm_num)
    have hpow0s : (0 : ℝ) < (1 / 2 : ℝ) ^ (n + 1) := by positivity
    have hBlo' : 4999 / 100 ≤ B := by nlinarith
    have hfApos : (0 : ℝ) < fA := lt_of_lt_of_le (by positivity) hfA
    obtain ⟨hFBlo, hFBhi⟩ := C1_F_bounds B hBlo' hBhi
    set FB := f_function B (Real.exp 50 + 1 / 100) 0 (1 / 100) 0 (1 / 4) with hFBdef
    have hFBneg : FB ≤ -199 := by nlinarith
    have hFBge : -200 ≤ FB := by nlinarith
    have hdne : (0 : ℝ) < fA - FB := by linarith
    set C := (0 : ℝ) + (0 - B) * fA / (FB - fA) with hCdef
    have hCeq : C = B * fA / (fA - FB) := by
      rw [hCdef, show FB - fA = -(fA - FB) by ring,
        show ((0 : ℝ) - B) * fA = -(B * fA) by ring, neg_div_neg_eq]
      ring
    have hfrac : fA / (fA - FB) ≤ 1 := by
      rw [div_le_one hdne]
      linarith
    have hChi : C ≤ B := by
      rw [hCeq, mul_div_assoc]
      nlinarith
    have hdrop : B - C ≤ 10000 / fA := by
      rw [hCeq]
      have h1 : B - B * fA / (fA - FB) = B * (-FB) / (fA - FB) := by
        field_simp
        ring
      rw [h1, div_le_div_iff₀ hdne hfApos]
      have h2 : B * (-FB) ≤ 10000 := by nlinarith
      have h3 : B * (-FB) * fA ≤ 10000 * fA :=
        mul_le_mul_of_nonneg_right h2 hfApos.le
      nlinarith
    have hcancel : (2 : ℝ) ^ n * (1 / 2) ^ n = 1 := by
      rw [← mul_pow]
      norm_num
    have hdrop2 : B - C ≤ 1 / 400 * (1 / 2) ^ n := by
      have h4 : 10000 / fA ≤ 1 / 400 * (1 / 2) ^ n := by
        rw [div_le_iff₀ hfApos]
        have h5 : (1 / 400 : ℝ) * (1 / 2) ^ n * (2000000 * 2 ^ (n + 1)) =
            10000 := by
          rw [pow_succ]
          linear_combination 10000 * hcancel
        calc (10000 : ℝ) = 1 / 400 * (1 / 2) ^ n * (2000000 * 2 ^ (n + 1)) :=
              h5.symm
          _ ≤ 1 / 400 * (1 / 2) ^ n * fA := by
              apply mul_le_mul_of_nonneg_left hfA (by positivity)
      linarith
    have hClo : 50 - 1 / 100 * (1 / 2) ^ n ≤ C := by
      have hhalf : (1 / 100 : ℝ) * (1 / 2) ^ (n + 1) = 1 / 200 * (1 / 2) ^ n := by
        rw [pow_succ]
        ring
      rw [hhalf] at hBlo
      linarith
    have hClo' : 4999 / 100 ≤ C := by nlinarith
    have hChi' : C ≤ 50 := le_trans hChi hBhi
    obtain ⟨hFClo, hFChi⟩ := C1_F_bounds C hClo' hChi'
    set FC := f_function C (Real.exp 50 + 1 / 100) 0 (1 / 100) 0 (1 / 4) with hFCdef
    have hFCneg : FC ≤ -199 := by nlinarith
    have hconv : ¬ |FC| < EPSILON := by
      rw [not_lt, EPSILON]
      calc (0.000001 : ℝ) ≤ -FC := by linarith
        _ ≤ |FC| := neg_le_abs FC
    have hflip : ¬ FC * FB < 0 := by
      rw [not_lt]
      nlinarith
    have hbudget : (2000000 : ℝ) * 2 ^ n ≤ fA / 2.0 := by
      rw [pow_succ] at hfA
      have h20 : (2.0 : ℝ) = 2 := by norm_num
      rw [h20, le_div_iff₀ (by norm_num : (0:ℝ) < 2)]
      linarith
    obtain ⟨B2, fA2, hgo, hB2lo, hB2hi⟩ := ih C (fA / 2.0) hClo hChi' hbudget
    refine ⟨B2, fA2, ?_, hB2lo, hB2hi⟩
    have hstep : illinoisStep (Real.exp 50 + 1 / 100) 0 (1 / 100) 0 (1 / 4)
        (0, B, fA, FB) = Sum.inl (0, C, fA / 2.0, FC) := by
      rw [illinoisStep_eq, ← hCdef, ← hFCdef, if_neg hconv, if_neg hflip]
    rw [illinoisGo_succ, hstep]
    exact hgo

set_option maxHeartbeats 1000000 in
/-- C1 is refuted: on the input `sigma = 1`, `delta = sqrt(exp 50 + 1/100)`,
`phi = 0`, `v = 1/100` the loop exhausts its 50-iteration budget with the
retained lower end still `0` and the last-computed iterate near `50`; the
code then returns `exp(0/2) = 1`, not `exp` of half the last iterate. -/
theorem illinois_fallback_counterexample :
    ¬ illinoisFallbackClaim 1 (Real.sqrt (Real.exp 50 + 1 / 100)) 0 (1 / 100) := by
  intro h
  have hδ : Real.sqrt (Real.exp 50 + 1 / 100) ^ 2 = Real.exp 50 + 1 / 100 :=
    Real.sq_sqrt (by positivity)
  have ha : Real.log ((1 : ℝ) ^ 2) = 0 := by norm_num
  have hfA0 : (2000000 : ℝ) * 2 ^ 50 ≤
      f_function 0 (Real.exp 50 + 1 / 100) 0 (1 / 100) 0 (1 / 4) := by
    have hE := C1_exp50_lb
    rw [f_function, Real.exp_zero]
    have h6 : Real.exp 0 * (Real.exp 50 + 1 / 100 - 0 - 1 / 100 - Real.exp 0) /
          (2.0 * (0 + 1 / 100 + Real.exp 0) ^ 2) - ((0 : ℝ) - 0) / (1 / 4) =
        (Real.exp 50 - 1) / (2 * (101 / 100) ^ 2) := by
      rw [Real.exp_zero]
      norm_num
    rw [Real.exp_zero] at h6
    rw [h6, le_div_iff₀ (by positivity)]
    nlinarith
  have hpows : (0 : ℝ) < 1 / 100 * (1 / 2) ^ 50 := by positivity
  obtain ⟨B2, fA2, hgo, hB2lo, hB2hi⟩ := C1_stuck_go 50 50
    (f_function 0 (Real.exp 50 + 1 / 100) 0 (1 / 100) 0 (1 / 4))
    (by linarith) le_rfl hfA0
  have hcond : Real.sqrt (Real.exp 50 + 1 / 100) ^ 2 > (0 : ℝ) ^ 2 + 1 / 100 := by
    rw [hδ]
    nlinarith [Real.exp_pos (50 : ℝ)]
  have hB50 : initialBigB 1 (Real.sqrt (Real.exp 50 + 1 / 100)) 0 (1 / 100) = 50 := by
    simp only [initialBigB]
    rw [if_pos hcond, hδ,
      show Real.exp 50 + 1 / 100 - (0 : ℝ) ^ 2 - 1 / 100 = Real.exp 50 by ring]
    exact Real.log_exp 50
  have hinit : illinoisInit 1 (Real.sqrt (Real.exp 50 + 1 / 100)) 0 (1 / 100) =
      (0, 50, f_function 0 (Real.exp 50 + 1 / 100) 0 (1 / 100) 0 (1 / 4),
        f_function 50 (Real.exp 50 + 1 / 100) 0 (1 / 100) 0 (1 / 4)) := by
    simp only [illinoisInit]
    rw [hB50, ha, hδ]
    norm_num [TAU]
  have hloop : illinoisGo (Real.sqrt (Real.exp 50 + 1 / 100) ^ 2) ((0 : ℝ) ^ 2)
      (1 / 100) (Real.log ((1 : ℝ) ^ 2)) (TAU ^ 2) 50
      (illinoisInit 1 (Real.sqrt (Real.exp 50 + 1 / 100)) 0 (1 / 100)) =
      Sum.inl (0, B2, fA2,
        f_function B2 (Real.exp 50 + 1 / 100) 0 (1 / 100) 0 (1 / 4)) := by
    rw [hinit, hδ, ha, show ((0 : ℝ) ^ 2) = 0 by norm_num,
      show (TAU ^ 2 : ℝ) = 1 / 4 by rw [TAU]; norm_num]
    exact hgo
  have hval := h 0 B2 fA2
    (f_function B2 (Real.exp 50 + 1 / 100) 0 (1 / 100) 0 (1 / 4)) hloop
  have hfv : find_new_volatility 1 (Real.sqrt (Real.exp 50 + 1 / 100)) 0
      (1 / 100) = 1 := by
    rw [find_new_volatility, hloop]
    simp only [volatilityOfOutcome]
    norm_num
  rw [hfv] at hval
  have hexp : B2 / 2.0 + 1 ≤ Real.exp (B2 / 2.0) := Real.add_one_le_exp _
  rw [← hval] at hexp
  have h20 : (2.0 : ℝ) = 2 := by norm_num
  rw [h20] at hexp
  linarith
